import Mathlib

/-!
Verification of the learning-path / task generation pipeline of the
`hack_backend` repository (Django backend).  The Python sources are shallowly
embedded: JSON values become an inductive type, Python dicts become
association lists with first-match lookup and replace-or-append assignment,
operations that can raise become `Except String`, and the ambient clock
(`datetime.now`, `timezone.now`) becomes an explicit parameter.
-/

namespace HackBackend

/-- Model of a Python JSON value (output of `json.loads` / dict literals in
`path/views.py` and `tasks/services.py`).  Numbers are modelled as rationals
(exact arithmetic standing in for Python int/float). -/
inductive Json where
  | null
  | bool (b : Bool)
  | num (q : ℚ)
  | str (s : String)
  | arr (elems : List Json)
  | obj (entries : List (String × Json))
deriving Repr

mutual

/-- Structural equality of JSON values (Python `==` on JSON data, except that
we keep `True`/`1` distinct, a uniform choice of equality for the model). -/
def Json.beq : Json → Json → Bool
  | .null, .null => true
  | .bool a, .bool b => a == b
  | .num a, .num b => a == b
  | .str a, .str b => a == b
  | .arr as, .arr bs => Json.beqList as bs
  | .obj as, .obj bs => Json.beqEntries as bs
  | _, _ => false

def Json.beqList : List Json → List Json → Bool
  | [], [] => true
  | a :: as, b :: bs => Json.beq a b && Json.beqList as bs
  | _, _ => false

def Json.beqEntries : List (String × Json) → List (String × Json) → Bool
  | [], [] => true
  | (k, v) :: as, (k', v') :: bs =>
      k == k' && Json.beq v v' && Json.beqEntries as bs
  | _, _ => false

end

mutual

theorem Json.beq_iff : ∀ a b : Json, Json.beq a b = true ↔ a = b
  | .null, .null => by simp [Json.beq]
  | .bool a, .bool b => by simp [Json.beq]
  | .num a, .num b => by simp [Json.beq]
  | .str a, .str b => by simp [Json.beq]
  | .arr as, .arr bs => by
      simp [Json.beq, Json.beqList_iff as bs]
  | .obj as, .obj bs => by
      simp [Json.beq, Json.beqEntries_iff as bs]
  | .null, .bool _ | .null, .num _ | .null, .str _ | .null, .arr _
  | .null, .obj _ | .bool _, .null | .bool _, .num _ | .bool _, .str _
  | .bool _, .arr _ | .bool _, .obj _ | .num _, .null | .num _, .bool _
  | .num _, .str _ | .num _, .arr _ | .num _, .obj _ | .str _, .null
  | .str _, .bool _ | .str _, .num _ | .str _, .arr _ | .str _, .obj _
  | .arr _, .null | .arr _, .bool _ | .arr _, .num _ | .arr _, .str _
  | .arr _, .obj _ | .obj _, .null | .obj _, .bool _ | .obj _, .num _
  | .obj _, .str _ | .obj _, .arr _ => by simp [Json.beq]

theorem Json.beqList_iff : ∀ as bs : List Json, Json.beqList as bs = true ↔ as = bs
  | [], [] => by simp [Json.beqList]
  | a :: as, b :: bs => by
      simp [Json.beqList, Json.beq_iff a b, Json.beqList_iff as bs]
  | [], _ :: _ => by simp [Json.beqList]
  | _ :: _, [] => by simp [Json.beqList]

theorem Json.beqEntries_iff :
    ∀ as bs : List (String × Json), Json.beqEntries as bs = true ↔ as = bs
  | [], [] => by simp [Json.beqEntries]
  | (k, v) :: as, (k', v') :: bs => by
      simp [Json.beqEntries, Json.beq_iff v v', Json.beqEntries_iff as bs,
        and_assoc]
  | [], _ :: _ => by simp [Json.beqEntries]
  | _ :: _, [] => by simp [Json.beqEntries]

end

instance : DecidableEq Json := fun a b => decidable_of_iff _ (Json.beq_iff a b)

/-- A Python dict with string keys, as used for every stage document. -/
def JsonObj : Type := List (String × Json)

instance : DecidableEq JsonObj := by
  unfold JsonObj; exact inferInstance

instance : Repr JsonObj := by
  unfold JsonObj; exact inferInstance

namespace JsonObj

/-- `d[k]` read: the value of the first entry with key `k` (Python dicts have
unique keys, so first-match lookup agrees with dict lookup). -/
def lookup (k : String) : JsonObj → Option Json
  | [] => none
  | (k', v) :: rest => if k' = k then some v else lookup k rest

/-- `k in d` for a dict. -/
def hasKey (o : JsonObj) (k : String) : Bool :=
  (o.lookup k).isSome

/-- `d[k] = v` assignment: replace the value of an existing key, else append
a new entry (Python dicts keep insertion order). -/
def setKey (k : String) (v : Json) : JsonObj → JsonObj
  | [] => [(k, v)]
  | (k', v') :: rest =>
      if k' = k then (k', v) :: rest else (k', v') :: setKey k v rest

theorem lookup_setKey_self (o : JsonObj) (k : String) (v : Json) :
    (o.setKey k v).lookup k = some v := by
  induction o with
  | nil => simp [setKey, lookup]
  | cons hd tl ih =>
      obtain ⟨k', v'⟩ := hd
      by_cases h : k' = k <;> simp [setKey, lookup, h, ih]

theorem lookup_setKey_ne (o : JsonObj) (k k' : String) (v : Json)
    (h : k' ≠ k) : (o.setKey k v).lookup k' = o.lookup k' := by
  induction o with
  | nil => simp [setKey, lookup, Ne.symm h]
  | cons hd tl ih =>
      obtain ⟨k₀, v₀⟩ := hd
      by_cases h₀ : k₀ = k
      · subst h₀
        simp [setKey, lookup, Ne.symm h]
      · by_cases h₁ : k₀ = k' <;> simp [setKey, lookup, h₀, h₁, ih, h]

theorem lookup_isSome_setKey (o : JsonObj) (k k' : String) (v : Json)
    (h : (o.lookup k').isSome) : ((o.setKey k v).lookup k').isSome := by
  by_cases hk : k' = k
  · subst hk; simp [lookup_setKey_self]
  · rwa [lookup_setKey_ne _ _ _ _ hk]

end JsonObj

/-- Python truthiness of a JSON value (`if x:`). -/
def truthy : Json → Bool
  | .null => false
  | .bool b => b
  | .num q => q ≠ 0
  | .str s => s ≠ ""
  | .arr l => !l.isEmpty
  | .obj l => !l.isEmpty

/-! ## Metrics (`LLMLearningPathGenerator._calculate_basic_metrics`,
`_analyze_difficulty_progression`)

The generator keeps a mutable `self.subject_scores` dict; we thread it as an
explicit `Scores` value.  Python float arithmetic on the percentage is
modelled by exact rational arithmetic, with `round(x, 1)` modelled as
round-half-to-even on tenths. -/

/-- One question entry as consumed by `_calculate_basic_metrics`:
`question.get('subject')` and `question.get('correct', False)`. -/
structure Question where
  subject : Json
  correct : Json
deriving Repr, DecidableEq

/-- One subject's entry of `self.subject_scores`. -/
structure SubjScore where
  correct : ℕ
  total : ℕ
deriving Repr, DecidableEq

/-- `self.subject_scores`, with the four fixed `SUBJECTS` as fields. -/
structure Scores where
  math : SubjScore
  reading : SubjScore
  science : SubjScore
  language : SubjScore
deriving Repr, DecidableEq

/-- `_initialize_scores`. -/
def initScores : Scores := ⟨⟨0, 0⟩, ⟨0, 0⟩, ⟨0, 0⟩, ⟨0, 0⟩⟩

/-- One subject's entry of the metrics dict. -/
structure SubjectMetric where
  percentage : ℚ
  correct : ℕ
  total : ℕ
deriving Repr, DecidableEq

/-- The metrics dict returned by `_calculate_basic_metrics`. -/
structure Metrics where
  math : SubjectMetric
  reading : SubjectMetric
  science : SubjectMetric
  language : SubjectMetric
deriving Repr, DecidableEq

/-- Round half to even to the nearest integer (the tie behavior of Python
`round`). -/
def roundHalfEven (x : ℚ) : ℤ :=
  let f := ⌊x⌋
  let r := x - f
  if r < 1 / 2 then f
  else if 1 / 2 < r then f + 1
  else if 2 ∣ f then f else f + 1

/-- `round(x, 1)`: one-decimal rounding, modelled over ℚ. -/
def pyRound1 (x : ℚ) : ℚ := (roundHalfEven (x * 10) : ℚ) / 10

/-- The per-question update in the counting loop of
`_calculate_basic_metrics`: `total += 1`, and `correct += 1` when the
`correct` value is truthy. -/
def bumpScore (sc : SubjScore) (c : Json) : SubjScore :=
  ⟨sc.correct + (if truthy c then 1 else 0), sc.total + 1⟩

/-- `if subject in self.SUBJECTS: ...` — dispatch one question to its
subject's score (questions with any other `subject` value are ignored). -/
def tallyQuestion (s : Scores) (q : Question) : Scores :=
  if q.subject = Json.str "Math" then { s with math := bumpScore s.math q.correct }
  else if q.subject = Json.str "Reading" then { s with reading := bumpScore s.reading q.correct }
  else if q.subject = Json.str "Science" then { s with science := bumpScore s.science q.correct }
  else if q.subject = Json.str "Language" then { s with language := bumpScore s.language q.correct }
  else s

/-- The counting loop over `self.questions`. -/
def tally (s : Scores) (qs : List Question) : Scores :=
  qs.foldl tallyQuestion s

/-- The percentage block of `_calculate_basic_metrics` for one subject:
`round((correct / total) * 100, 1)` when `total > 0`, else the literal
zero entry. -/
def metricOf (sc : SubjScore) : SubjectMetric :=
  if 0 < sc.total then
    ⟨pyRound1 ((sc.correct : ℚ) / (sc.total : ℚ) * 100), sc.correct, sc.total⟩
  else ⟨0, 0, 0⟩

/-- `_calculate_basic_metrics`: mutates `self.subject_scores` by tallying all
questions again, then computes the metrics dict from the mutated scores. -/
def calcBasicMetricsS (s : Scores) (qs : List Question) : Scores × Metrics :=
  let s' := tally s qs
  (s', ⟨metricOf s'.math, metricOf s'.reading, metricOf s'.science, metricOf s'.language⟩)

/-- The threshold chain of `_analyze_difficulty_progression`. -/
def difficultyFor (p : ℚ) : String :=
  if 80 ≤ p then "Advanced"
  else if 60 ≤ p then "Intermediate"
  else "Basic"

/-- The per-subject difficulty mapping dict. -/
structure DifficultyMap where
  math : String
  reading : String
  science : String
  language : String
deriving Repr, DecidableEq

def diffMapOf (m : Metrics) : DifficultyMap :=
  ⟨difficultyFor m.math.percentage, difficultyFor m.reading.percentage,
   difficultyFor m.science.percentage, difficultyFor m.language.percentage⟩

/-- `_analyze_difficulty_progression`: recomputes the metrics (tallying into
the instance state once more) and maps each percentage through the
thresholds. -/
def analyzeDifficultyProgressionS (s : Scores) (qs : List Question) :
    Scores × DifficultyMap :=
  let r := calcBasicMetricsS s qs
  (r.1, diffMapOf r.2)

/-- The two metric computations performed by one `generate_learning_path`
run on a fresh generator: `_create_analysis_prompt` calls
`_calculate_basic_metrics`, then `_create_learning_path_prompt` calls
`_analyze_difficulty_progression` (which calls it again), both accumulating
into the same `self.subject_scores`. -/
def generatorMetricCalls (qs : List Question) :
    Metrics × Metrics × DifficultyMap :=
  let r1 := calcBasicMetricsS initScores qs
  let r2 := analyzeDifficultyProgressionS r1.1 qs
  (r1.2, (calcBasicMetricsS r1.1 qs).2, r2.2)

/-- Number of questions attributed to subject `name`. -/
def countSubject (name : String) (qs : List Question) : ℕ :=
  (qs.filter (fun q => decide (q.subject = Json.str name))).length

/-- Number of questions attributed to subject `name` with truthy `correct`. -/
def countCorrect (name : String) (qs : List Question) : ℕ :=
  (qs.filter (fun q => decide (q.subject = Json.str name) && truthy q.correct)).length

theorem tally_math (qs : List Question) : ∀ s : Scores,
    (tally s qs).math =
      ⟨s.math.correct + countCorrect "Math" qs, s.math.total + countSubject "Math" qs⟩ := by
  induction qs with
  | nil => intro s; simp [tally, countSubject, countCorrect]
  | cons q qs ih =>
      intro s
      have step : tally s (q :: qs) = tally (tallyQuestion s q) qs := by
        simp [tally]
      rw [step, ih]
      by_cases h1 : q.subject = Json.str "Math"
      · cases htc : truthy q.correct <;>
          simp [tallyQuestion, h1, bumpScore, countSubject, countCorrect, htc] <;>
          omega
      · have hmathEq : (tallyQuestion s q).math = s.math := by
          by_cases h2 : q.subject = Json.str "Reading"
          · simp [tallyQuestion, h1, h2]
          · by_cases h3 : q.subject = Json.str "Science"
            · simp [tallyQuestion, h1, h2, h3]
            · by_cases h4 : q.subject = Json.str "Language"
              · simp [tallyQuestion, h1, h2, h3, h4]
              · simp [tallyQuestion, h1, h2, h3, h4]
        rw [hmathEq]
        simp [countSubject, countCorrect, h1]

theorem tally_reading (qs : List Question) : ∀ s : Scores,
    (tally s qs).reading =
      ⟨s.reading.correct + countCorrect "Reading" qs,
       s.reading.total + countSubject "Reading" qs⟩ := by
  induction qs with
  | nil => intro s; simp [tally, countSubject, countCorrect]
  | cons q qs ih =>
      intro s
      have step : tally s (q :: qs) = tally (tallyQuestion s q) qs := by
        simp [tally]
      rw [step, ih]
      by_cases h2 : q.subject = Json.str "Reading"
      · have h1 : ¬ q.subject = Json.str "Math" := by simp [h2]
        cases htc : truthy q.correct <;>
          simp [tallyQuestion, h1, h2, bumpScore, countSubject, countCorrect, htc] <;>
          omega
      · have hEq : (tallyQuestion s q).reading = s.reading := by
          by_cases h1 : q.subject = Json.str "Math"
          · simp [tallyQuestion, h1]
          · by_cases h3 : q.subject = Json.str "Science"
            · simp [tallyQuestion, h1, h2, h3]
            · by_cases h4 : q.subject = Json.str "Language"
              · simp [tallyQuestion, h1, h2, h3, h4]
              · simp [tallyQuestion, h1, h2, h3, h4]
        rw [hEq]
        simp [countSubject, countCorrect, h2]

theorem tally_science (qs : List Question) : ∀ s : Scores,
    (tally s qs).science =
      ⟨s.science.correct + countCorrect "Science" qs,
       s.science.total + countSubject "Science" qs⟩ := by
  induction qs with
  | nil => intro s; simp [tally, countSubject, countCorrect]
  | cons q qs ih =>
      intro s
      have step : tally s (q :: qs) = tally (tallyQuestion s q) qs := by
        simp [tally]
      rw [step, ih]
      by_cases h3 : q.subject = Json.str "Science"
      · have h1 : ¬ q.subject = Json.str "Math" := by simp [h3]
        have h2 : ¬ q.subject = Json.str "Reading" := by simp [h3]
        cases htc : truthy q.correct <;>
          simp [tallyQuestion, h1, h2, h3, bumpScore, countSubject, countCorrect, htc] <;>
          omega
      · have hEq : (tallyQuestion s q).science = s.science := by
          by_cases h1 : q.subject = Json.str "Math"
          · simp [tallyQuestion, h1]
          · by_cases h2 : q.subject = Json.str "Reading"
            · simp [tallyQuestion, h1, h2]
            · by_cases h4 : q.subject = Json.str "Language"
              · simp [tallyQuestion, h1, h2, h3, h4]
              · simp [tallyQuestion, h1, h2, h3, h4]
        rw [hEq]
        simp [countSubject, countCorrect, h3]

theorem tally_language (qs : List Question) : ∀ s : Scores,
    (tally s qs).language =
      ⟨s.language.correct + countCorrect "Language" qs,
       s.language.total + countSubject "Language" qs⟩ := by
  induction qs with
  | nil => intro s; simp [tally, countSubject, countCorrect]
  | cons q qs ih =>
      intro s
      have step : tally s (q :: qs) = tally (tallyQuestion s q) qs := by
        simp [tally]
      rw [step, ih]
      by_cases h4 : q.subject = Json.str "Language"
      · have h1 : ¬ q.subject = Json.str "Math" := by simp [h4]
        have h2 : ¬ q.subject = Json.str "Reading" := by simp [h4]
        have h3 : ¬ q.subject = Json.str "Science" := by simp [h4]
        cases htc : truthy q.correct <;>
          simp [tallyQuestion, h1, h2, h3, h4, bumpScore, countSubject, countCorrect, htc] <;>
          omega
      · have hEq : (tallyQuestion s q).language = s.language := by
          by_cases h1 : q.subject = Json.str "Math"
          · simp [tallyQuestion, h1]
          · by_cases h2 : q.subject = Json.str "Reading"
            · simp [tallyQuestion, h1, h2]
            · by_cases h3 : q.subject = Json.str "Science"
              · simp [tallyQuestion, h1, h2, h3]
              · simp [tallyQuestion, h1, h2, h3, h4]
        rw [hEq]
        simp [countSubject, countCorrect, h4]

theorem countCorrect_le (name : String) (qs : List Question) :
    countCorrect name qs ≤ countSubject name qs := by
  unfold countCorrect countSubject
  induction qs with
  | nil => simp
  | cons q qs ih =>
      by_cases h : q.subject = Json.str name <;>
        cases htc : truthy q.correct <;>
        simp [h, htc] <;> omega

theorem metricOf_correct_total (cc cs : ℕ) (hle : cc ≤ cs) :
    (metricOf ⟨cc, cs⟩).correct = cc ∧ (metricOf ⟨cc, cs⟩).total = cs := by
  by_cases h : 0 < cs
  · simp [metricOf, h]
  · have hcs : cs = 0 := by omega
    have hcc : cc = 0 := by omega
    subst hcs; subst hcc
    simp [metricOf]

/-- What claim C5 asserts of one subject's metric entry. -/
def metricSpec (name : String) (qs : List Question) (sm : SubjectMetric) : Prop :=
  sm.correct = countCorrect name qs ∧
  sm.total = countSubject name qs ∧
  (0 < countSubject name qs →
     sm.percentage =
       pyRound1 (100 * (countCorrect name qs : ℚ) / (countSubject name qs : ℚ))) ∧
  (countSubject name qs = 0 → sm = ⟨0, 0, 0⟩)

theorem metricOf_metricSpec (name : String) (qs : List Question) :
    metricSpec name qs (metricOf ⟨countCorrect name qs, countSubject name qs⟩) := by
  have hle := countCorrect_le name qs
  refine ⟨(metricOf_correct_total _ _ hle).1, (metricOf_correct_total _ _ hle).2, ?_, ?_⟩
  · intro hpos
    have h100 : ((countCorrect name qs : ℚ) / (countSubject name qs : ℚ)) * 100 =
        100 * (countCorrect name qs : ℚ) / (countSubject name qs : ℚ) := by ring
    simp [metricOf, hpos, h100]
  · intro hz
    have hcc : countCorrect name qs = 0 := by omega
    simp [metricOf, hz, hcc]

/-- C5.  For every diagnostic question sequence, each of the four fixed
subjects' metric has the response counts of that subject, percentage
`100 * correct / total` rounded to one decimal when the subject has at least
one response, and the literal zero entry when it has none; the empty input
yields zero-valued metrics for all four subjects rather than an error. -/
theorem claim5_metrics_formula (qs : List Question) :
    metricSpec "Math" qs (calcBasicMetricsS initScores qs).2.math ∧
    metricSpec "Reading" qs (calcBasicMetricsS initScores qs).2.reading ∧
    metricSpec "Science" qs (calcBasicMetricsS initScores qs).2.science ∧
    metricSpec "Language" qs (calcBasicMetricsS initScores qs).2.language ∧
    (qs = [] →
      (calcBasicMetricsS initScores qs).2 =
        ⟨⟨0, 0, 0⟩, ⟨0, 0, 0⟩, ⟨0, 0, 0⟩, ⟨0, 0, 0⟩⟩) := by
  have hm : (tally initScores qs).math =
      ⟨countCorrect "Math" qs, countSubject "Math" qs⟩ := by
    simpa [initScores] using tally_math qs initScores
  have hr : (tally initScores qs).reading =
      ⟨countCorrect "Reading" qs, countSubject "Reading" qs⟩ := by
    simpa [initScores] using tally_reading qs initScores
  have hs : (tally initScores qs).science =
      ⟨countCorrect "Science" qs, countSubject "Science" qs⟩ := by
    simpa [initScores] using tally_science qs initScores
  have hl : (tally initScores qs).language =
      ⟨countCorrect "Language" qs, countSubject "Language" qs⟩ := by
    simpa [initScores] using tally_language qs initScores
  refine ⟨?_, ?_, ?_, ?_, ?_⟩
  · show metricSpec _ _ (metricOf (tally initScores qs).math)
    rw [hm]; exact metricOf_metricSpec _ _
  · show metricSpec _ _ (metricOf (tally initScores qs).reading)
    rw [hr]; exact metricOf_metricSpec _ _
  · show metricSpec _ _ (metricOf (tally initScores qs).science)
    rw [hs]; exact metricOf_metricSpec _ _
  · show metricSpec _ _ (metricOf (tally initScores qs).language)
    rw [hl]; exact metricOf_metricSpec _ _
  · intro hqs; subst hqs; rfl

/-- Scenario input: 5 Math responses (4 correct), 5 Reading responses
(2 correct). -/
def qsScenario : List Question :=
  [⟨Json.str "Math", Json.bool true⟩, ⟨Json.str "Math", Json.bool true⟩,
   ⟨Json.str "Math", Json.bool true⟩, ⟨Json.str "Math", Json.bool true⟩,
   ⟨Json.str "Math", Json.bool false⟩,
   ⟨Json.str "Reading", Json.bool true⟩, ⟨Json.str "Reading", Json.bool true⟩,
   ⟨Json.str "Reading", Json.bool false⟩, ⟨Json.str "Reading", Json.bool false⟩,
   ⟨Json.str "Reading", Json.bool false⟩]

/-- Witness for C5 at a concrete input (Math 4/5 → 80.0). -/
theorem claim5_metrics_formula_witness :
    (0 < countSubject "Math" qsScenario ∧
     (calcBasicMetricsS initScores qsScenario).2.math.percentage = 80) ∧
    metricSpec "Math" qsScenario (calcBasicMetricsS initScores qsScenario).2.math := by
  refine ⟨⟨by decide, ?_⟩, (claim5_metrics_formula qsScenario).1⟩
  obtain ⟨-, -, hp, -⟩ := (claim5_metrics_formula qsScenario).1
  have hcs : countSubject "Math" qsScenario = 5 := by decide
  have hcc : countCorrect "Math" qsScenario = 4 := by decide
  rw [hp (by rw [hcs]; norm_num), hcs, hcc]
  have harg : (100 * ((4 : ℕ) : ℚ) / ((5 : ℕ) : ℚ)) = 80 := by norm_num
  rw [harg]
  have hfl : ⌊(80 : ℚ) * 10⌋ = 800 := by
    rw [show (80 : ℚ) * 10 = ((800 : ℤ) : ℚ) by norm_num, Int.floor_intCast]
  simp only [pyRound1, roundHalfEven, hfl]
  norm_num

/-- Rank of a difficulty tier, for stating monotonicity. -/
def tierRank (t : String) : ℕ :=
  if t = "Advanced" then 2 else if t = "Intermediate" then 1 else 0

/-- C6.  The assigned difficulty tier matches the fixed thresholds exactly
(≥80 → Advanced, 60 ≤ p < 80 → Intermediate, <60 → Basic, so 79.9 →
Intermediate, 80.0 → Advanced, 59.9 → Basic), is monotone non-decreasing in
the percentage, and `_analyze_difficulty_progression` is exactly this mapping
applied to each subject's computed percentage. -/
theorem claim6_difficulty_thresholds :
    (∀ p : ℚ, 80 ≤ p → difficultyFor p = "Advanced") ∧
    (∀ p : ℚ, 60 ≤ p → p < 80 → difficultyFor p = "Intermediate") ∧
    (∀ p : ℚ, p < 60 → difficultyFor p = "Basic") ∧
    (∀ p q : ℚ, p ≤ q → tierRank (difficultyFor p) ≤ tierRank (difficultyFor q)) ∧
    difficultyFor (799 / 10) = "Intermediate" ∧
    difficultyFor 80 = "Advanced" ∧
    difficultyFor (599 / 10) = "Basic" ∧
    (∀ (s : Scores) (qs : List Question),
      (analyzeDifficultyProgressionS s qs).2 = diffMapOf (calcBasicMetricsS s qs).2) := by
  refine ⟨?_, ?_, ?_, ?_,
    by rw [difficultyFor, if_neg (by norm_num), if_pos (by norm_num)],
    by rw [difficultyFor, if_pos (by norm_num)],
    by rw [difficultyFor, if_neg (by norm_num), if_neg (by norm_num)],
    fun s qs => rfl⟩
  · intro p h; simp [difficultyFor, h]
  · intro p h1 h2
    rw [difficultyFor, if_neg (not_le.mpr h2), if_pos h1]
  · intro p h
    have h60 : ¬ 60 ≤ p := not_le.mpr h
    have h80 : ¬ 80 ≤ p := by intro hc; exact h60 (by linarith)
    rw [difficultyFor, if_neg h80, if_neg h60]
  · intro p q h
    unfold difficultyFor
    split_ifs <;> first | decide | (exfalso; linarith)

/-- Witness for C6 at concrete percentages. -/
theorem claim6_difficulty_thresholds_witness :
    ((80 : ℚ) ≤ 85 ∧ difficultyFor 85 = "Advanced") ∧
    ((65 : ℚ) ≤ 72 ∧ tierRank (difficultyFor 65) ≤ tierRank (difficultyFor 72)) :=
  ⟨⟨by norm_num, claim6_difficulty_thresholds.1 85 (by norm_num)⟩,
   ⟨by norm_num, claim6_difficulty_thresholds.2.2.2.1 65 72 (by norm_num)⟩⟩

theorem metricOf_double (cc cs : ℕ) :
    (metricOf ⟨cc + cc, cs + cs⟩).correct = 2 * (metricOf ⟨cc, cs⟩).correct ∧
    (metricOf ⟨cc + cc, cs + cs⟩).total = 2 * (metricOf ⟨cc, cs⟩).total ∧
    (metricOf ⟨cc + cc, cs + cs⟩).percentage = (metricOf ⟨cc, cs⟩).percentage := by
  by_cases h : 0 < cs
  · have h2 : 0 < cs + cs := by omega
    have hcast : ((cc : ℚ) + (cc : ℚ)) / ((cs : ℚ) + (cs : ℚ)) = (cc : ℚ) / (cs : ℚ) := by
      rw [show (cc : ℚ) + cc = 2 * cc by ring, show (cs : ℚ) + cs = 2 * cs by ring,
        mul_div_mul_left _ _ (two_ne_zero)]
    refine ⟨by simp [metricOf, h, h2]; omega, by simp [metricOf, h, h2]; omega, ?_⟩
    simp only [metricOf, if_pos h, if_pos h2, Nat.cast_add]
    rw [hcast]
  · have hcs : cs = 0 := by omega
    subst hcs
    simp [metricOf]

/-- C7, counterexample.  One correct Math response: within a single
`generate_learning_path` run, the first metric computation reports
`correct = 1` for Math while the second (performed for the difficulty
mapping, on the same response sequence) reports `correct = 2`, because
`_calculate_basic_metrics` accumulates into the mutable
`self.subject_scores` instead of being pure. -/
theorem claim7_counterexample :
    (generatorMetricCalls [⟨Json.str "Math", Json.bool true⟩]).1.math.correct = 1 ∧
    (generatorMetricCalls [⟨Json.str "Math", Json.bool true⟩]).2.1.math.correct = 2 ∧
    (generatorMetricCalls [⟨Json.str "Math", Json.bool true⟩]).2.1.math.correct ≠
      (generatorMetricCalls [⟨Json.str "Math", Json.bool true⟩]).1.math.correct := by
  decide

/-- C7, amended.  Within one generation run the two metric computations over
the same response sequence yield identical percentages (and hence an
identical difficulty mapping), but the second computation's correct and
total counts are exactly double the first's, due to the accumulation in the
mutable `self.subject_scores`. -/
theorem claim7_amended (qs : List Question) :
    ((generatorMetricCalls qs).2.1.math.correct = 2 * (generatorMetricCalls qs).1.math.correct ∧
     (generatorMetricCalls qs).2.1.math.total = 2 * (generatorMetricCalls qs).1.math.total ∧
     (generatorMetricCalls qs).2.1.math.percentage = (generatorMetricCalls qs).1.math.percentage) ∧
    ((generatorMetricCalls qs).2.1.reading.correct = 2 * (generatorMetricCalls qs).1.reading.correct ∧
     (generatorMetricCalls qs).2.1.reading.total = 2 * (generatorMetricCalls qs).1.reading.total ∧
     (generatorMetricCalls qs).2.1.reading.percentage = (generatorMetricCalls qs).1.reading.percentage) ∧
    ((generatorMetricCalls qs).2.1.science.correct = 2 * (generatorMetricCalls qs).1.science.correct ∧
     (generatorMetricCalls qs).2.1.science.total = 2 * (generatorMetricCalls qs).1.science.total ∧
     (generatorMetricCalls qs).2.1.science.percentage = (generatorMetricCalls qs).1.science.percentage) ∧
    ((generatorMetricCalls qs).2.1.language.correct = 2 * (generatorMetricCalls qs).1.language.correct ∧
     (generatorMetricCalls qs).2.1.language.total = 2 * (generatorMetricCalls qs).1.language.total ∧
     (generatorMetricCalls qs).2.1.language.percentage = (generatorMetricCalls qs).1.language.percentage) ∧
    (generatorMetricCalls qs).2.2 = diffMapOf (generatorMetricCalls qs).1 := by
  have hm : (tally initScores qs).math =
      ⟨countCorrect "Math" qs, countSubject "Math" qs⟩ := by
    simpa [initScores] using tally_math qs initScores
  have hr : (tally initScores qs).reading =
      ⟨countCorrect "Reading" qs, countSubject "Reading" qs⟩ := by
    simpa [initScores] using tally_reading qs initScores
  have hs : (tally initScores qs).science =
      ⟨countCorrect "Science" qs, countSubject "Science" qs⟩ := by
    simpa [initScores] using tally_science qs initScores
  have hl : (tally initScores qs).language =
      ⟨countCorrect "Language" qs, countSubject "Language" qs⟩ := by
    simpa [initScores] using tally_language qs initScores
  have hm2 : (tally (tally initScores qs) qs).math =
      ⟨countCorrect "Math" qs + countCorrect "Math" qs,
       countSubject "Math" qs + countSubject "Math" qs⟩ := by
    rw [tally_math qs (tally initScores qs), hm]
  have hr2 : (tally (tally initScores qs) qs).reading =
      ⟨countCorrect "Reading" qs + countCorrect "Reading" qs,
       countSubject "Reading" qs + countSubject "Reading" qs⟩ := by
    rw [tally_reading qs (tally initScores qs), hr]
  have hs2 : (tally (tally initScores qs) qs).science =
      ⟨countCorrect "Science" qs + countCorrect "Science" qs,
       countSubject "Science" qs + countSubject "Science" qs⟩ := by
    rw [tally_science qs (tally initScores qs), hs]
  have hl2 : (tally (tally initScores qs) qs).language =
      ⟨countCorrect "Language" qs + countCorrect "Language" qs,
       countSubject "Language" qs + countSubject "Language" qs⟩ := by
    rw [tally_language qs (tally initScores qs), hl]
  have goal1 :
      (generatorMetricCalls qs).1 =
        ⟨metricOf ⟨countCorrect "Math" qs, countSubject "Math" qs⟩,
         metricOf ⟨countCorrect "Reading" qs, countSubject "Reading" qs⟩,
         metricOf ⟨countCorrect "Science" qs, countSubject "Science" qs⟩,
         metricOf ⟨countCorrect "Language" qs, countSubject "Language" qs⟩⟩ := by
    show (⟨metricOf (tally initScores qs).math, metricOf (tally initScores qs).reading,
           metricOf (tally initScores qs).science,
           metricOf (tally initScores qs).language⟩ : Metrics) = _
    rw [hm, hr, hs, hl]
  have goal2 :
      (generatorMetricCalls qs).2.1 =
        ⟨metricOf ⟨countCorrect "Math" qs + countCorrect "Math" qs,
                   countSubject "Math" qs + countSubject "Math" qs⟩,
         metricOf ⟨countCorrect "Reading" qs + countCorrect "Reading" qs,
                   countSubject "Reading" qs + countSubject "Reading" qs⟩,
         metricOf ⟨countCorrect "Science" qs + countCorrect "Science" qs,
                   countSubject "Science" qs + countSubject "Science" qs⟩,
         metricOf ⟨countCorrect "Language" qs + countCorrect "Language" qs,
                   countSubject "Language" qs + countSubject "Language" qs⟩⟩ := by
    show (⟨metricOf (tally (tally initScores qs) qs).math,
           metricOf (tally (tally initScores qs) qs).reading,
           metricOf (tally (tally initScores qs) qs).science,
           metricOf (tally (tally initScores qs) qs).language⟩ : Metrics) = _
    rw [hm2, hr2, hs2, hl2]
  have goal3 : (generatorMetricCalls qs).2.2 = diffMapOf (generatorMetricCalls qs).2.1 := rfl
  rw [goal3, goal1, goal2]
  have dm := metricOf_double (countCorrect "Math" qs) (countSubject "Math" qs)
  have dr := metricOf_double (countCorrect "Reading" qs) (countSubject "Reading" qs)
  have ds := metricOf_double (countCorrect "Science" qs) (countSubject "Science" qs)
  have dl := metricOf_double (countCorrect "Language" qs) (countSubject "Language" qs)
  refine ⟨⟨dm.1, dm.2.1, dm.2.2⟩, ⟨dr.1, dr.2.1, dr.2.2⟩,
    ⟨ds.1, ds.2.1, ds.2.2⟩, ⟨dl.1, dl.2.1, dl.2.2⟩, ?_⟩
  simp [diffMapOf, dm.2.2, dr.2.2, ds.2.2, dl.2.2]

/-! ## Python operations on JSON values

`_ensure_valid_structure` applies `in`, `.get`, slicing and item assignment
to values of unknown shape; each is modelled with its Python error behavior
(`Except.error` standing for a raised exception). -/

/-- `needle == hay-element` check helper: leading-match of char lists. -/
def leadMatch : List Char → List Char → Bool
  | _, [] => true
  | [], _ :: _ => false
  | a :: as, b :: bs => (a = b) && leadMatch as bs

/-- Contiguous-substring check on char lists. -/
def containsChars (needle : List Char) : List Char → Bool
  | [] => leadMatch [] needle
  | c :: rest => leadMatch (c :: rest) needle || containsChars needle rest

/-- Python `needle in hay` for strings (substring containment). -/
def strContains (hay needle : String) : Bool :=
  containsChars needle.toList hay.toList

/-- Python `needle in v` for an arbitrary value: key membership for dicts,
element membership for lists, substring for strings, `TypeError` otherwise. -/
def pyContainsStr (v : Json) (needle : String) : Except String Bool :=
  match v with
  | .obj o => .ok (JsonObj.hasKey o needle)
  | .arr l => .ok (decide (Json.str needle ∈ l))
  | .str s => .ok (strContains s needle)
  | _ => .error "TypeError: argument is not iterable"

/-- Python `v.get(k, d)`: only dicts have `.get`; returns the dict's entries
together with the looked-up value (`AttributeError` otherwise). -/
def objGet (v : Json) (k : String) (d : Json) :
    Except String (List (String × Json) × Json) :=
  match v with
  | .obj o => .ok (o, (JsonObj.lookup k o).getD d)
  | _ => .error "AttributeError: no attribute get"

/-- `timedelta(weeks=w)`: numeric weeks accepted (bool counts as int),
`TypeError` otherwise. -/
def weeksVal : Json → Except String ℚ
  | .num q => .ok q
  | .bool b => .ok (if b then 1 else 0)
  | _ => .error "TypeError: unsupported type for timedelta weeks"

/-- Python `x[:2]`. -/
def pySlice2 : Json → Except String Json
  | .arr l => .ok (.arr (l.take 2))
  | .str s => .ok (.str ⟨s.toList.take 2⟩)
  | _ => .error "TypeError: object is not subscriptable"

/-- `k in d and bool(d[k])`, the guard used for `study_plan` and
`recommended_topics`. -/
def keyTruthy (lp : JsonObj) (k : String) : Bool :=
  match lp.lookup k with
  | some v => truthy v
  | none => false

/-! ## Schema repair (`_ensure_valid_structure`, `_validate_expert_roadmap`)

`self._get_completion_date` (now + the given number of weeks, formatted)
is passed in as the function `cd`. -/

/-- Default `difficulty_levels`: `{subject: "Basic" for subject in SUBJECTS}`. -/
def dlDefault : Json :=
  .obj [("Math", .str "Basic"), ("Reading", .str "Basic"),
        ("Science", .str "Basic"), ("Language", .str "Basic")]

/-- `if key not in d: d[key] = default` — the shape of the
`difficulty_levels`, `long_term_vision` and `development_timeline` blocks. -/
def addIfAbsent (key : String) (d : Json) (lp : JsonObj) : JsonObj :=
  if lp.hasKey key then lp else lp.setKey key d

/-- `if key not in d or not d[key]: d[key] = default` — the shape of the
`recommended_topics` and `mastery_progression` blocks. -/
def setIfFalsy (key : String) (d : Json) (lp : JsonObj) : JsonObj :=
  if keyTruthy lp key then lp else lp.setKey key d

/-- The `difficulty_levels` block of `_ensure_valid_structure`. -/
def stepDifficultyLevels (lp : JsonObj) : JsonObj :=
  addIfAbsent "difficulty_levels" dlDefault lp

/-- The `estimated_completion_time` block of `_ensure_valid_structure`. -/
def stepEstTime (cd : ℚ → String) (lp : JsonObj) : Except String JsonObj :=
  match lp.lookup "estimated_completion_time" with
  | none =>
      .ok (lp.setKey "estimated_completion_time"
        (.obj [("weeks", .num 4), ("estimated_completion_date", .str (cd 4))]))
  | some v => do
      let c ← pyContainsStr v "estimated_completion_date"
      if c then pure lp
      else do
        let ow ← objGet v "weeks" (.num 4)
        let wq ← weeksVal ow.2
        pure (lp.setKey "estimated_completion_time"
          (.obj (JsonObj.setKey "estimated_completion_date" (.str (cd wq)) ow.1)))

/-- The `study_plan` block of `_ensure_valid_structure`. -/
def stepStudyPlan (lp : JsonObj) : Except String JsonObj :=
  if keyTruthy lp "study_plan" then .ok lp
  else do
    let focus := (lp.lookup "weaknesses").getD (.arr [.str "Math"])
    let topicsRaw := (lp.lookup "recommended_topics").getD (.arr [.str "Fundamentals"])
    let topics ← pySlice2 topicsRaw
    .ok (lp.setKey "study_plan" (.arr [.obj [
      ("week", .num 1),
      ("focus_areas", focus),
      ("activities", .arr [.obj [
        ("subject", .str "Math"),
        ("topics", topics),
        ("hours", .num 5),
        ("resources", .arr [.str "online tutorials", .str "practice exercises"])]])]]))

/-- The `recommended_topics` block of `_ensure_valid_structure`. -/
def stepRecommendedTopics (lp : JsonObj) : JsonObj :=
  setIfFalsy "recommended_topics"
    (.arr [.str "Fundamentals review", .str "Core skills practice"]) lp

/-- `LLMLearningPathGenerator._ensure_valid_structure`. -/
def ensureValidStructure (cd : ℚ → String) (lp : JsonObj) : Except String JsonObj := do
  let a := stepDifficultyLevels lp
  let b ← stepEstTime cd a
  let c ← stepStudyPlan b
  pure (stepRecommendedTopics c)

/-- Default `long_term_vision` of `_validate_expert_roadmap`. -/
def ltvDefault : Json := .obj [
  ("educational_trajectory", .str "Progressive mastery from foundational to advanced skills"),
  ("skill_evolution", .str "Iterative development with increasing complexity"),
  ("potential_career_paths", .arr [.str "Educator", .str "Specialist", .str "Researcher"]),
  ("expert_level_outcomes", .arr [.str "Independent problem solving", .str "Knowledge creation"])]

/-- Default two-phase `mastery_progression` of `_validate_expert_roadmap`. -/
def mpDefault : Json := .arr [
  .obj [("phase", .str "beginner"), ("duration", .str "3-6 months"),
        ("focus_areas", .arr [.str "Fundamentals", .str "Core concepts"]),
        ("success_indicators", .arr [.str "Consistent application of basic principles"]),
        ("common_challenges", .arr [.str "Overwhelm with new information"]),
        ("recommended_approaches", .arr [.str "Structured practice", .str "Guided learning"])],
  .obj [("phase", .str "intermediate"), ("duration", .str "6-12 months"),
        ("focus_areas", .arr [.str "Integration of concepts", .str "Problem solving"]),
        ("success_indicators", .arr [.str "Independent application of principles"]),
        ("common_challenges", .arr [.str "Plateaus in skill development"]),
        ("recommended_approaches", .arr [.str "Project-based learning", .str "Pattern recognition"])]]

/-- Default `development_timeline` of `_validate_expert_roadmap`. -/
def dtDefault : Json := .obj [
  ("short_term_goals", .arr [.str "Master fundamental concepts", .str "Develop consistent study habits"]),
  ("medium_term_goals", .arr [.str "Independently solve complex problems", .str "Teach basics to others"]),
  ("long_term_goals", .arr [.str "Contribute original insights", .str "Achieve expert-level proficiency"]),
  ("milestone_achievements", .arr [.str "Complete capstone projects", .str "Earn recognized certifications"])]

/-- `LLMLearningPathGenerator._validate_expert_roadmap` (total: no operation
in it can raise on a dict input). -/
def validateExpertRoadmap (rm : JsonObj) : JsonObj :=
  addIfAbsent "development_timeline" dtDefault
    (setIfFalsy "mastery_progression" mpDefault
      (addIfAbsent "long_term_vision" ltvDefault rm))

/-! ### Plumbing lemmas for `Except` and keyed updates -/

theorem exceptBind_ok {α β : Type} (x : Except String α) (f : α → Except String β)
    (b : β) : (x >>= f) = .ok b ↔ ∃ a, x = .ok a ∧ f a = .ok b := by
  cases x <;> simp [Bind.bind, Except.bind]

theorem exceptPure_eq {α : Type} (a b : α) :
    (pure a : Except String α) = .ok b ↔ a = b := by
  simp [pure, Except.pure]

theorem hasKey_setKey_self (o : JsonObj) (k : String) (v : Json) :
    (o.setKey k v).hasKey k = true := by
  simp [JsonObj.hasKey, JsonObj.lookup_setKey_self]

theorem hasKey_setKey_other (o : JsonObj) (k k' : String) (v : Json)
    (h : k' ≠ k) : (o.setKey k v).hasKey k' = o.hasKey k' := by
  simp [JsonObj.hasKey, JsonObj.lookup_setKey_ne _ _ _ _ h]

theorem keyTruthy_setKey_self (o : JsonObj) (k : String) (v : Json) :
    keyTruthy (o.setKey k v) k = truthy v := by
  simp [keyTruthy, JsonObj.lookup_setKey_self]

theorem keyTruthy_setKey_other (o : JsonObj) (k k' : String) (v : Json)
    (h : k' ≠ k) : keyTruthy (o.setKey k v) k' = keyTruthy o k' := by
  simp [keyTruthy, JsonObj.lookup_setKey_ne _ _ _ _ h]

/-! ### Case characterizations of the repair steps -/

theorem stepDL_cases (lp : JsonObj) :
    (lp.hasKey "difficulty_levels" = true ∧ stepDifficultyLevels lp = lp) ∨
    (lp.hasKey "difficulty_levels" = false ∧
      stepDifficultyLevels lp = lp.setKey "difficulty_levels" dlDefault) := by
  cases h : lp.hasKey "difficulty_levels" with
  | true => exact .inl ⟨rfl, by simp [stepDifficultyLevels, addIfAbsent, h]⟩
  | false => exact .inr ⟨rfl, by simp [stepDifficultyLevels, addIfAbsent, h]⟩

theorem stepET_cases (cd : ℚ → String) (lp lp' : JsonObj)
    (h : stepEstTime cd lp = .ok lp') :
    (lp.lookup "estimated_completion_time" = none ∧
      lp' = lp.setKey "estimated_completion_time"
        (.obj [("weeks", .num 4), ("estimated_completion_date", .str (cd 4))])) ∨
    (∃ v, lp.lookup "estimated_completion_time" = some v ∧
      pyContainsStr v "estimated_completion_date" = .ok true ∧ lp' = lp) ∨
    (∃ (o : List (String × Json)) (wq : ℚ),
      lp.lookup "estimated_completion_time" = some (.obj o) ∧
      JsonObj.lookup "estimated_completion_date" o = none ∧
      lp' = lp.setKey "estimated_completion_time"
        (.obj (JsonObj.setKey "estimated_completion_date" (.str (cd wq)) o))) := by
  unfold stepEstTime at h
  cases hv : lp.lookup "estimated_completion_time" with
  | none =>
      rw [hv] at h
      simp only [Except.ok.injEq] at h
      exact .inl ⟨rfl, h.symm⟩
  | some v =>
      rw [hv] at h
      rw [exceptBind_ok] at h
      obtain ⟨c, hc, h⟩ := h
      cases c with
      | true =>
          simp only [if_true, exceptPure_eq] at h
          exact .inr (.inl ⟨v, rfl, hc, h.symm⟩)
      | false =>
          simp only [Bool.false_eq_true, if_false] at h
          rw [exceptBind_ok] at h
          obtain ⟨ow, how, h⟩ := h
          rw [exceptBind_ok] at h
          obtain ⟨wq, hwq, h⟩ := h
          rw [exceptPure_eq] at h
          cases v with
          | obj o =>
              simp only [objGet, Except.ok.injEq] at how
              have hhk : JsonObj.hasKey o "estimated_completion_date" = false := by
                simpa [pyContainsStr] using hc
              have hlk : JsonObj.lookup "estimated_completion_date" o = none := by
                cases hl : JsonObj.lookup "estimated_completion_date" o with
                | none => rfl
                | some w => rw [JsonObj.hasKey, hl] at hhk; simp at hhk
              refine .inr (.inr ⟨o, wq, rfl, hlk, ?_⟩)
              rw [← h, ← how]
          | null => simp [objGet] at how
          | bool b => simp [objGet] at how
          | num q => simp [objGet] at how
          | str s => simp [objGet] at how
          | arr l => simp [objGet] at how

theorem stepSP_cases (lp lp' : JsonObj) (h : stepStudyPlan lp = .ok lp') :
    (keyTruthy lp "study_plan" = true ∧ lp' = lp) ∨
    (keyTruthy lp "study_plan" = false ∧
      ∃ sp, truthy sp = true ∧ lp' = lp.setKey "study_plan" sp) := by
  unfold stepStudyPlan at h
  cases hkt : keyTruthy lp "study_plan" with
  | true =>
      rw [hkt] at h
      simp only [if_true, Except.ok.injEq] at h
      exact .inl ⟨rfl, h.symm⟩
  | false =>
      rw [hkt] at h
      simp only [Bool.false_eq_true, if_false] at h
      rw [exceptBind_ok] at h
      obtain ⟨topics, htop, h⟩ := h
      simp only [Except.ok.injEq] at h
      refine .inr ⟨rfl, _, ?_, h.symm⟩
      rfl

theorem stepRT_cases (lp : JsonObj) :
    (keyTruthy lp "recommended_topics" = true ∧ stepRecommendedTopics lp = lp) ∨
    (keyTruthy lp "recommended_topics" = false ∧
      stepRecommendedTopics lp = lp.setKey "recommended_topics"
        (.arr [.str "Fundamentals review", .str "Core skills practice"])) := by
  cases h : keyTruthy lp "recommended_topics" with
  | true => exact .inl ⟨rfl, by simp [stepRecommendedTopics, setIfFalsy, h]⟩
  | false => exact .inr ⟨rfl, by simp [stepRecommendedTopics, setIfFalsy, h]⟩

/-! ### Generic facts about the default-filling combinators -/

theorem addIfAbsent_pres (lp : JsonObj) (key : String) (d : Json) (k : String)
    (v : Json) (h : lp.lookup k = some v) :
    (addIfAbsent key d lp).lookup k = some v := by
  cases hk : lp.hasKey key with
  | true => simp [addIfAbsent, hk, h]
  | false =>
      have hne : k ≠ key := by
        intro he; subst he
        rw [JsonObj.hasKey, h] at hk; simp at hk
      simp [addIfAbsent, hk, JsonObj.lookup_setKey_ne _ _ _ _ hne, h]

theorem addIfAbsent_lookup_ne (lp : JsonObj) (key : String) (d : Json)
    (k : String) (h : k ≠ key) :
    (addIfAbsent key d lp).lookup k = lp.lookup k := by
  cases hk : lp.hasKey key with
  | true => simp [addIfAbsent, hk]
  | false => simp [addIfAbsent, hk, JsonObj.lookup_setKey_ne _ _ _ _ h]

theorem addIfAbsent_hasKey_self (lp : JsonObj) (key : String) (d : Json) :
    (addIfAbsent key d lp).hasKey key = true := by
  cases hk : lp.hasKey key with
  | true => simp [addIfAbsent, hk]
  | false => simp [addIfAbsent, hk, hasKey_setKey_self]

theorem setIfFalsy_pres (lp : JsonObj) (key : String) (d : Json) (k : String)
    (v : Json) (h : lp.lookup k = some v) :
    ∃ v2, (setIfFalsy key d lp).lookup k = some v2 ∧ (truthy v = true → v2 = v) := by
  cases hk : keyTruthy lp key with
  | true => exact ⟨v, by simp [setIfFalsy, hk, h], fun _ => rfl⟩
  | false =>
      by_cases hne : k = key
      · subst hne
        refine ⟨d, by simp [setIfFalsy, hk, JsonObj.lookup_setKey_self], ?_⟩
        intro ht
        rw [keyTruthy, h] at hk
        simp [ht] at hk
      · exact ⟨v, by simp [setIfFalsy, hk, JsonObj.lookup_setKey_ne _ _ _ _ hne, h],
          fun _ => rfl⟩

theorem setIfFalsy_lookup_ne (lp : JsonObj) (key : String) (d : Json)
    (k : String) (h : k ≠ key) :
    (setIfFalsy key d lp).lookup k = lp.lookup k := by
  cases hk : keyTruthy lp key with
  | true => simp [setIfFalsy, hk]
  | false => simp [setIfFalsy, hk, JsonObj.lookup_setKey_ne _ _ _ _ h]

theorem setIfFalsy_keyTruthy_self (lp : JsonObj) (key : String) (d : Json)
    (hd : truthy d = true) : keyTruthy (setIfFalsy key d lp) key = true := by
  cases hk : keyTruthy lp key with
  | true => simp [setIfFalsy, hk]
  | false => simp [setIfFalsy, hk, keyTruthy_setKey_self, hd]

/-! ### The repaired document is a fixed point -/

/-- Facts that hold of every successful `_ensure_valid_structure` output. -/
theorem ensure_shape (cd : ℚ → String) (lp out : JsonObj)
    (h : ensureValidStructure cd lp = .ok out) :
    out.hasKey "difficulty_levels" = true ∧
    (∃ v, out.lookup "estimated_completion_time" = some v ∧
      pyContainsStr v "estimated_completion_date" = .ok true) ∧
    keyTruthy out "study_plan" = true ∧
    keyTruthy out "recommended_topics" = true := by
  unfold ensureValidStructure at h
  rw [exceptBind_ok] at h
  obtain ⟨b, hb, h⟩ := h
  rw [exceptBind_ok] at h
  obtain ⟨c, hc, h⟩ := h
  rw [exceptPure_eq] at h
  subst h
  have hadl : (stepDifficultyLevels lp).hasKey "difficulty_levels" = true :=
    addIfAbsent_hasKey_self _ _ _
  have hbdl : b.hasKey "difficulty_levels" = true := by
    rcases stepET_cases cd _ _ hb with ⟨h1, h2⟩ | ⟨v, h1, h2, h3⟩ | ⟨o, wq, h1, h2, h3⟩
    · rw [h2, hasKey_setKey_other _ _ _ _ (by decide)]; exact hadl
    · rw [h3]; exact hadl
    · rw [h3, hasKey_setKey_other _ _ _ _ (by decide)]; exact hadl
  have hbest : ∃ v, b.lookup "estimated_completion_time" = some v ∧
      pyContainsStr v "estimated_completion_date" = .ok true := by
    rcases stepET_cases cd _ _ hb with ⟨h1, h2⟩ | ⟨v, h1, h2, h3⟩ | ⟨o, wq, h1, h2, h3⟩
    · refine ⟨_, by rw [h2]; exact JsonObj.lookup_setKey_self _ _ _, ?_⟩
      rfl
    · exact ⟨v, by rw [h3]; exact h1, h2⟩
    · refine ⟨_, by rw [h3]; exact JsonObj.lookup_setKey_self _ _ _, ?_⟩
      show pyContainsStr (.obj (JsonObj.setKey "estimated_completion_date" _ o)) _ = _
      simp [pyContainsStr, hasKey_setKey_self]
  have hcdl : c.hasKey "difficulty_levels" = true := by
    rcases stepSP_cases _ _ hc with ⟨h1, h2⟩ | ⟨h1, sp, hsp, h2⟩
    · rw [h2]; exact hbdl
    · rw [h2, hasKey_setKey_other _ _ _ _ (by decide)]; exact hbdl
  have hcest : ∃ v, c.lookup "estimated_completion_time" = some v ∧
      pyContainsStr v "estimated_completion_date" = .ok true := by
    obtain ⟨v, hv, hcv⟩ := hbest
    rcases stepSP_cases _ _ hc with ⟨h1, h2⟩ | ⟨h1, sp, hsp, h2⟩
    · exact ⟨v, by rw [h2]; exact hv, hcv⟩
    · exact ⟨v, by rw [h2, JsonObj.lookup_setKey_ne _ _ _ _ (by decide)]; exact hv, hcv⟩
  have hcsp : keyTruthy c "study_plan" = true := by
    rcases stepSP_cases _ _ hc with ⟨h1, h2⟩ | ⟨h1, sp, hsp, h2⟩
    · rw [h2]; exact h1
    · rw [h2, keyTruthy_setKey_self]; exact hsp
  refine ⟨?_, ?_, ?_, ?_⟩
  · rcases stepRT_cases c with ⟨h1, h2⟩ | ⟨h1, h2⟩
    · rw [h2]; exact hcdl
    · rw [h2, hasKey_setKey_other _ _ _ _ (by decide)]; exact hcdl
  · obtain ⟨v, hv, hcv⟩ := hcest
    rcases stepRT_cases c with ⟨h1, h2⟩ | ⟨h1, h2⟩
    · exact ⟨v, by rw [h2]; exact hv, hcv⟩
    · exact ⟨v, by rw [h2, JsonObj.lookup_setKey_ne _ _ _ _ (by decide)]; exact hv, hcv⟩
  · rcases stepRT_cases c with ⟨h1, h2⟩ | ⟨h1, h2⟩
    · rw [h2]; exact hcsp
    · rw [h2]
      rw [show keyTruthy (JsonObj.setKey "recommended_topics" _ c) "study_plan" =
            keyTruthy c "study_plan" from
          keyTruthy_setKey_other _ _ _ _ (by decide)]
      exact hcsp
  · rcases stepRT_cases c with ⟨h1, h2⟩ | ⟨h1, h2⟩
    · rw [h2]; exact h1
    · rw [h2, keyTruthy_setKey_self]; rfl

/-- A document satisfying the repaired shape is a fixed point of
`_ensure_valid_structure`. -/
theorem ensure_fixed (cd : ℚ → String) (x : JsonObj)
    (f1 : x.hasKey "difficulty_levels" = true)
    (f2 : ∃ v, x.lookup "estimated_completion_time" = some v ∧
      pyContainsStr v "estimated_completion_date" = .ok true)
    (f3 : keyTruthy x "study_plan" = true)
    (f4 : keyTruthy x "recommended_topics" = true) :
    ensureValidStructure cd x = .ok x := by
  obtain ⟨v, hv, hcont⟩ := f2
  have hDL : stepDifficultyLevels x = x := by
    simp [stepDifficultyLevels, addIfAbsent, f1]
  have hET : stepEstTime cd x = .ok x := by
    unfold stepEstTime
    rw [hv, exceptBind_ok]
    exact ⟨true, hcont, by simp [exceptPure_eq]⟩
  have hSP : stepStudyPlan x = .ok x := by
    unfold stepStudyPlan
    rw [f3]
    simp
  have hRT : stepRecommendedTopics x = x := by
    simp [stepRecommendedTopics, setIfFalsy, f4]
  show (stepEstTime cd (stepDifficultyLevels x) >>= fun b =>
        stepStudyPlan b >>= fun c => pure (stepRecommendedTopics c)) = .ok x
  rw [exceptBind_ok]
  refine ⟨x, by rw [hDL]; exact hET, ?_⟩
  rw [exceptBind_ok]
  refine ⟨x, hSP, ?_⟩
  rw [exceptPure_eq, hRT]

/-- Facts that hold of every `_validate_expert_roadmap` output. -/
theorem validate_shape (rm : JsonObj) :
    (validateExpertRoadmap rm).hasKey "long_term_vision" = true ∧
    keyTruthy (validateExpertRoadmap rm) "mastery_progression" = true ∧
    (validateExpertRoadmap rm).hasKey "development_timeline" = true := by
  unfold validateExpertRoadmap
  refine ⟨?_, ?_, ?_⟩
  · rw [JsonObj.hasKey, addIfAbsent_lookup_ne _ _ _ _ (by decide),
      setIfFalsy_lookup_ne _ _ _ _ (by decide)]
    have := addIfAbsent_hasKey_self rm "long_term_vision" ltvDefault
    rwa [JsonObj.hasKey] at this
  · rw [keyTruthy, addIfAbsent_lookup_ne _ _ _ _ (by decide)]
    have := setIfFalsy_keyTruthy_self
      (addIfAbsent "long_term_vision" ltvDefault rm) "mastery_progression" mpDefault rfl
    rwa [keyTruthy] at this
  · exact addIfAbsent_hasKey_self _ _ _

/-- A roadmap satisfying the validated shape is a fixed point of
`_validate_expert_roadmap`. -/
theorem validate_fixed (x : JsonObj)
    (f1 : x.hasKey "long_term_vision" = true)
    (f2 : keyTruthy x "mastery_progression" = true)
    (f3 : x.hasKey "development_timeline" = true) :
    validateExpertRoadmap x = x := by
  unfold validateExpertRoadmap
  rw [show addIfAbsent "long_term_vision" ltvDefault x = x by
      simp [addIfAbsent, f1],
    show setIfFalsy "mastery_progression" mpDefault x = x by
      simp [setIfFalsy, f2],
    show addIfAbsent "development_timeline" dtDefault x = x by
      simp [addIfAbsent, f3]]

/-- A fixed completion-date function for concrete runs (stands for
`datetime.now() + timedelta(weeks=w)` formatted). -/
def cdFix : ℚ → String := fun _ => "2026-11-01"

/-- The `estimated_completion_time` value of the C2 counterexample: a truthy
dict that lacks `estimated_completion_date`. -/
def vC2 : Json := Json.obj [("weeks", Json.num 3)]

/-- The C2 counterexample input document. -/
def lpC2 : JsonObj := [("estimated_completion_time", vC2)]

/-- C2, counterexample.  On input `{"estimated_completion_time": {"weeks": 3}}`
the repair succeeds but the (truthy) value stored under
`estimated_completion_time` comes out changed — the nested
`estimated_completion_date` key is added inside it — so repair does not leave
every truthy input value unchanged. -/
theorem claim2_counterexample :
    JsonObj.lookup "estimated_completion_time" lpC2 = some vC2 ∧
    truthy vC2 = true ∧
    Except.map (fun out => JsonObj.lookup "estimated_completion_time" out)
        (ensureValidStructure cdFix lpC2) =
      .ok (some (Json.obj [("weeks", Json.num 3),
        ("estimated_completion_date", Json.str "2026-11-01")])) ∧
    Json.obj [("weeks", Json.num 3),
      ("estimated_completion_date", Json.str "2026-11-01")] ≠ vC2 :=
  ⟨rfl, rfl, rfl, by decide⟩

/-- C2, amended.  Schema repair never removes a key, and preserves every
truthy value unchanged, for every key except `estimated_completion_time`:
there an existing object value lacking `estimated_completion_date` gains
exactly that nested key (its other entries unchanged).  Expert-roadmap
repair is fully additive. -/
theorem claim2_amended :
    (∀ (cd : ℚ → String) (lp out : JsonObj),
      ensureValidStructure cd lp = .ok out →
      ∀ k v, lp.lookup k = some v →
        ∃ v2, out.lookup k = some v2 ∧
          (truthy v = true → k ≠ "estimated_completion_time" → v2 = v) ∧
          (k = "estimated_completion_time" →
            v2 = v ∨ ∃ (o : List (String × Json)) (d : String), v = .obj o ∧
              JsonObj.lookup "estimated_completion_date" o = none ∧
              v2 = .obj (JsonObj.setKey "estimated_completion_date" (.str d) o))) ∧
    (∀ (rm : JsonObj) (k : String) (v : Json), rm.lookup k = some v →
      ∃ v2, (validateExpertRoadmap rm).lookup k = some v2 ∧
        (truthy v = true → v2 = v)) := by
  constructor
  · intro cd lp out h k v hv
    unfold ensureValidStructure at h
    rw [exceptBind_ok] at h
    obtain ⟨b, hb, h⟩ := h
    rw [exceptBind_ok] at h
    obtain ⟨c, hc, h⟩ := h
    rw [exceptPure_eq] at h
    subst h
    have ha : (stepDifficultyLevels lp).lookup k = some v :=
      addIfAbsent_pres lp "difficulty_levels" dlDefault k v hv
    by_cases hkest : k = "estimated_completion_time"
    · subst hkest
      rcases stepET_cases cd _ _ hb with ⟨h1, h2⟩ | ⟨v', h1, h2, h3⟩ | ⟨o, wq, h1, h2, h3⟩
      · rw [h1] at ha; cases ha
      · -- value untouched by the estimated-completion-time block
        rw [ha] at h1
        cases h1
        have hbk : b.lookup "estimated_completion_time" = some v := by
          rw [h3]; exact ha
        have hck : c.lookup "estimated_completion_time" = some v := by
          rcases stepSP_cases _ _ hc with ⟨h4, h5⟩ | ⟨h4, sp, hsp, h5⟩
          · rw [h5]; exact hbk
          · rw [h5, JsonObj.lookup_setKey_ne _ _ _ _ (by decide)]; exact hbk
        have hout : (stepRecommendedTopics c).lookup "estimated_completion_time" = some v := by
          rw [show (stepRecommendedTopics c).lookup "estimated_completion_time" =
              c.lookup "estimated_completion_time" from
            setIfFalsy_lookup_ne _ _ _ _ (by decide)]
          exact hck
        exact ⟨v, hout, fun _ _ => rfl, fun _ => .inl rfl⟩
      · -- the nested date key is added inside the existing object
        rw [ha] at h1
        cases h1
        have hbk : b.lookup "estimated_completion_time" =
            some (.obj (JsonObj.setKey "estimated_completion_date" (.str (cd wq)) o)) := by
          rw [h3]; exact JsonObj.lookup_setKey_self _ _ _
        have hck : c.lookup "estimated_completion_time" =
            some (.obj (JsonObj.setKey "estimated_completion_date" (.str (cd wq)) o)) := by
          rcases stepSP_cases _ _ hc with ⟨h4, h5⟩ | ⟨h4, sp, hsp, h5⟩
          · rw [h5]; exact hbk
          · rw [h5, JsonObj.lookup_setKey_ne _ _ _ _ (by decide)]; exact hbk
        have hout : (stepRecommendedTopics c).lookup "estimated_completion_time" =
            some (.obj (JsonObj.setKey "estimated_completion_date" (.str (cd wq)) o)) := by
          rw [show (stepRecommendedTopics c).lookup "estimated_completion_time" =
              c.lookup "estimated_completion_time" from
            setIfFalsy_lookup_ne _ _ _ _ (by decide)]
          exact hck
        refine ⟨_, hout, fun _ hne => absurd rfl hne, fun _ => .inr ⟨o, cd wq, rfl, h2, rfl⟩⟩
    · -- keys other than estimated_completion_time
      have hbk : b.lookup k = some v := by
        rcases stepET_cases cd _ _ hb with ⟨h1, h2⟩ | ⟨v', h1, h2, h3⟩ | ⟨o, wq, h1, h2, h3⟩
        · rw [h2, JsonObj.lookup_setKey_ne _ _ _ _ hkest]; exact ha
        · rw [h3]; exact ha
        · rw [h3, JsonObj.lookup_setKey_ne _ _ _ _ hkest]; exact ha
      have hck : ∃ v3, c.lookup k = some v3 ∧ (truthy v = true → v3 = v) := by
        rcases stepSP_cases _ _ hc with ⟨h4, h5⟩ | ⟨h4, sp, hsp, h5⟩
        · exact ⟨v, by rw [h5]; exact hbk, fun _ => rfl⟩
        · by_cases hksp : k = "study_plan"
          · subst hksp
            refine ⟨sp, by rw [h5]; exact JsonObj.lookup_setKey_self _ _ _, ?_⟩
            intro ht
            rw [keyTruthy, hbk] at h4
            simp [ht] at h4
          · exact ⟨v, by rw [h5, JsonObj.lookup_setKey_ne _ _ _ _ hksp]; exact hbk,
              fun _ => rfl⟩
      obtain ⟨v3, hv3, himp3⟩ := hck
      obtain ⟨v4, hv4, himp4⟩ :=
        setIfFalsy_pres c "recommended_topics"
          (.arr [.str "Fundamentals review", .str "Core skills practice"]) k v3 hv3
      refine ⟨v4, hv4, ?_, fun hke => absurd hke hkest⟩
      intro ht _
      rw [himp4 (by rw [himp3 ht]; exact ht), himp3 ht]
  · intro rm k v h
    have h1 : (addIfAbsent "long_term_vision" ltvDefault rm).lookup k = some v :=
      addIfAbsent_pres rm "long_term_vision" ltvDefault k v h
    obtain ⟨v2, h2, imp2⟩ :=
      setIfFalsy_pres (addIfAbsent "long_term_vision" ltvDefault rm)
        "mastery_progression" mpDefault k v h1
    have h3 : (validateExpertRoadmap rm).lookup k = some v2 :=
      addIfAbsent_pres _ "development_timeline" dtDefault k v2 h2
    exact ⟨v2, h3, imp2⟩

/-- The repaired document of the C2 counterexample input. -/
def outC2 : JsonObj :=
  [("estimated_completion_time", Json.obj [("weeks", Json.num 3),
      ("estimated_completion_date", Json.str "2026-11-01")]),
   ("difficulty_levels", dlDefault),
   ("study_plan", Json.arr [Json.obj [
      ("week", Json.num 1),
      ("focus_areas", Json.arr [Json.str "Math"]),
      ("activities", Json.arr [Json.obj [
        ("subject", Json.str "Math"),
        ("topics", Json.arr [Json.str "Fundamentals"]),
        ("hours", Json.num 5),
        ("resources", Json.arr [Json.str "online tutorials",
          Json.str "practice exercises"])]])]]),
   ("recommended_topics", Json.arr [Json.str "Fundamentals review",
      Json.str "Core skills practice"])]

/-- Witness for the amended C2 at a concrete repaired input. -/
theorem claim2_amended_witness :
    (ensureValidStructure cdFix lpC2 = .ok outC2 ∧
     JsonObj.lookup "estimated_completion_time" lpC2 = some vC2) ∧
    ∃ v2, JsonObj.lookup "estimated_completion_time" outC2 = some v2 ∧
      (truthy vC2 = true → "estimated_completion_time" ≠ "estimated_completion_time" →
        v2 = vC2) ∧
      ("estimated_completion_time" = "estimated_completion_time" →
        v2 = vC2 ∨ ∃ (o : List (String × Json)) (d : String), vC2 = .obj o ∧
          JsonObj.lookup "estimated_completion_date" o = none ∧
          v2 = .obj (JsonObj.setKey "estimated_completion_date" (.str d) o)) :=
  ⟨⟨rfl, rfl⟩,
   claim2_amended.1 cdFix lpC2 outC2 rfl "estimated_completion_time" vC2 rfl⟩

/-- C3.  Schema repair is idempotent for both stage types: running
`_ensure_valid_structure` on its own successful output returns that output
unchanged (and errors propagate unchanged through a second application), and
`_validate_expert_roadmap` is idempotent as a total function. -/
theorem claim3_repair_idempotent :
    (∀ (cd : ℚ → String) (lp : JsonObj),
      (ensureValidStructure cd lp).bind (ensureValidStructure cd) =
        ensureValidStructure cd lp) ∧
    (∀ rm : JsonObj,
      validateExpertRoadmap (validateExpertRoadmap rm) = validateExpertRoadmap rm) := by
  constructor
  · intro cd lp
    cases hres : ensureValidStructure cd lp with
    | error e => simp [Except.bind]
    | ok out =>
        obtain ⟨f1, f2, f3, f4⟩ := ensure_shape cd lp out hres
        simp [Except.bind, ensure_fixed cd out f1 f2 f3 f4]
  · intro rm
    obtain ⟨f1, f2, f3⟩ := validate_shape rm
    exact validate_fixed _ f1 f2 f3

/-! ## Merge (`LLMLearningPathGenerator._merge_learning_path_and_roadmap`)

`list(set(a + b))` is modelled as `List.dedup` of the concatenation; Python's
set iteration order is unspecified, so the model fixes one dedup order and
every proved property is order-independent (membership and `Nodup`). -/

/-- Python `for x in v`: lists yield elements, strings their one-character
substrings, dicts their keys; other values raise `TypeError`. -/
def pyIter : Json → Except String (List Json)
  | .arr l => .ok l
  | .str s => .ok (s.toList.map (fun ch => .str (String.mk [ch])))
  | .obj o => .ok (o.map (fun kv => .str kv.1))
  | _ => .error "TypeError: object is not iterable"

/-- Python `v[k]` with a string key: `KeyError` when missing,
`TypeError` on non-dicts. -/
def pyGetItem (v : Json) (k : String) : Except String Json :=
  match v with
  | .obj o =>
      match JsonObj.lookup k o with
      | some x => .ok x
      | none => .error "KeyError"
  | _ => .error "TypeError: value is not subscriptable by str"

/-- Python `a + b` on JSON values (list and string concatenation only). -/
def pyAdd : Json → Json → Except String Json
  | .arr a, .arr b => .ok (.arr (a ++ b))
  | .str a, .str b => .ok (.str (a ++ b))
  | _, _ => .error "TypeError: unsupported operand types for +"

/-- Values Python can hash (set members). -/
def hashable : Json → Bool
  | .arr _ => false
  | .obj _ => false
  | _ => true

/-- Python `list(set(x))`: deduplicate an iterable of hashable values. -/
def pySetList : Json → Except String Json
  | .arr l => if l.all hashable then .ok (.arr l.dedup)
              else .error "TypeError: unhashable type"
  | .str s => .ok (.arr ((s.toList.map (fun ch => Json.str (String.mk [ch]))).dedup))
  | .obj o => .ok (.arr ((o.map (fun kv => Json.str kv.1)).dedup))
  | _ => .error "TypeError: object is not iterable"

/-- One tier update of the merge loop:
`cp["skill_roadmap"][tier] = list(set(cp["skill_roadmap"].get(tier, []) +
phase.get("focus_areas", [])))`. -/
def mergeTier (cp : JsonObj) (phase : Json) (tier : String) :
    Except String JsonObj := do
  let srv ← (match cp.lookup "skill_roadmap" with
    | some x => Except.ok x
    | none => Except.error "KeyError")
  let base ← objGet srv tier (.arr [])
  let fa ← objGet phase "focus_areas" (.arr [])
  let combined ← pyAdd base.2 fa.2
  let deduped ← pySetList combined
  pure (cp.setKey "skill_roadmap" (.obj (JsonObj.setKey tier deduped base.1)))

/-- One iteration of `for phase in roadmap["mastery_progression"]`. -/
def mergePhase (cp : JsonObj) (phase : Json) : Except String JsonObj := do
  let ph ← pyGetItem phase "phase"
  if ph = .str "beginner" then mergeTier cp phase "foundational_skills"
  else if ph = .str "intermediate" then mergeTier cp phase "intermediate_skills"
  else if ph = .str "advanced" ∨ ph = .str "expert" then
    mergeTier cp phase "advanced_skills"
  else pure cp

/-- One iteration of `for guidance in roadmap["expert_guidance"]`. -/
def mergeGuidance (cp : JsonObj) (guidance : Json) : Except String JsonObj := do
  let topic ← pyGetItem guidance "topic"
  let rest ← objGet guidance "expert_insights" (.str "")
  let pitfalls ← objGet guidance "common_misconceptions" (.arr [])
  let strategies ← objGet guidance "advanced_techniques" (.arr [])
  let item := Json.obj [("topic", topic), ("advice", rest.2),
    ("common_pitfalls", pitfalls.2), ("success_strategies", strategies.2)]
  match cp.lookup "mentor_guidance" with
  | some (.arr l) => pure (cp.setKey "mentor_guidance" (.arr (l ++ [item])))
  | some _ => .error "AttributeError: no attribute append"
  | none => .error "KeyError"

/-- The `skill_roadmap` enhancement block of
`_merge_learning_path_and_roadmap`: guarded by
`"skill_roadmap" in comprehensive_plan and "mastery_progression" in roadmap`,
then one `mergePhase` iteration per phase. -/
def mergeSkillStage (rm : JsonObj) (cp : JsonObj) : Except String JsonObj :=
  if cp.hasKey "skill_roadmap" && rm.hasKey "mastery_progression" then do
    let mpv ← (match rm.lookup "mastery_progression" with
      | some x => Except.ok x
      | none => Except.error "KeyError")
    let phases ← pyIter mpv
    phases.foldlM mergePhase cp
  else pure cp

/-- The mentor-guidance block of `_merge_learning_path_and_roadmap`:
guarded by `"expert_guidance" in roadmap`, ensures `mentor_guidance` exists,
then one `mergeGuidance` iteration per entry. -/
def mergeGuidanceStage (rm : JsonObj) (cp : JsonObj) : Except String JsonObj :=
  if rm.hasKey "expert_guidance" then do
    let cp := if cp.hasKey "mentor_guidance" then cp
              else cp.setKey "mentor_guidance" (.arr [])
    let egv ← (match rm.lookup "expert_guidance" with
      | some x => Except.ok x
      | none => Except.error "KeyError")
    let gs ← pyIter egv
    gs.foldlM mergeGuidance cp
  else pure cp

/-- `LLMLearningPathGenerator._merge_learning_path_and_roadmap`: copy the
learning path, store the roadmap under `expert_roadmap`, then run the
skill-roadmap and mentor-guidance enhancement blocks in order. -/
def mergeLearningPathAndRoadmap (lp rm : JsonObj) : Except String JsonObj :=
  mergeSkillStage rm (lp.setKey "expert_roadmap" (.obj rm)) >>=
    mergeGuidanceStage rm

/-- The three tier keys of `skill_roadmap`. -/
def tierNames : List String :=
  ["foundational_skills", "intermediate_skills", "advanced_skills"]

/-- The tier key a `phase` value is routed to (claim C4's phase-name
matching: beginner→foundational, intermediate→intermediate,
advanced/expert→advanced). -/
def tierOf (phv : Json) : Option String :=
  if phv = .str "beginner" then some "foundational_skills"
  else if phv = .str "intermediate" then some "intermediate_skills"
  else if phv = .str "advanced" ∨ phv = .str "expert" then some "advanced_skills"
  else none

/-- The tier list stored under key `t` (empty when absent or not a list). -/
def tierList (o : List (String × Json)) (t : String) : List Json :=
  match JsonObj.lookup t o with
  | some (.arr l) => l
  | _ => []

/-- The `focus_areas` list of a phase (empty when absent or not a list). -/
def phaseFocus (p : Json) : List Json :=
  match p with
  | .obj po =>
      match JsonObj.lookup "focus_areas" po with
      | some (.arr l) => l
      | _ => []
  | _ => []

/-- Phase `p` is matched to tier `t` by its `phase` name. -/
def tierMatches (p : Json) (t : String) : Prop :=
  ∃ po phv, p = .obj po ∧ JsonObj.lookup "phase" po = some phv ∧
    tierOf phv = some t

/-- Tier values of a `skill_roadmap` object are lists (the shape produced by
the learning-path prompt and preserved by every update of the merge loop). -/
def srTyped (sr : List (String × Json)) : Prop :=
  ∀ t ∈ tierNames, ∀ v, JsonObj.lookup t sr = some v → ∃ l, v = .arr l

/-- `focus_areas` values of phases are lists. -/
def phasesTyped (phases : List Json) : Prop :=
  ∀ p ∈ phases, ∀ po : List (String × Json), p = .obj po →
    ∀ v, JsonObj.lookup "focus_areas" po = some v → ∃ l, v = .arr l

theorem tierMatches_iff (po : List (String × Json)) (ph : Json) (t : String)
    (hph : JsonObj.lookup "phase" po = some ph) :
    tierMatches (.obj po) t ↔ tierOf ph = some t := by
  constructor
  · rintro ⟨po', phv, heq, hl, hto⟩
    injection heq with he
    subst he
    rw [hph] at hl
    injection hl with h2
    subst h2
    exact hto
  · intro h
    exact ⟨po, ph, rfl, hph, h⟩

theorem mergeTier_spec (cp : JsonObj) (po : List (String × Json)) (t : String)
    (sr : List (String × Json)) (cp1 : JsonObj)
    (hcp : cp.lookup "skill_roadmap" = some (.obj sr))
    (hsr : srTyped sr) (ht : t ∈ tierNames)
    (hfa : ∀ v, JsonObj.lookup "focus_areas" po = some v → ∃ l, v = .arr l)
    (h : mergeTier cp (.obj po) t = .ok cp1) :
    cp1 = cp.setKey "skill_roadmap"
      (.obj (JsonObj.setKey t
        (.arr (tierList sr t ++ phaseFocus (.obj po)).dedup) sr)) := by
  unfold mergeTier at h
  rw [exceptBind_ok] at h
  obtain ⟨srv, hsrv, h⟩ := h
  rw [hcp] at hsrv
  have hsrv' : srv = Json.obj sr := (Except.ok.inj hsrv).symm
  subst hsrv'
  rw [exceptBind_ok] at h
  obtain ⟨base, hbase, h⟩ := h
  simp only [objGet] at hbase
  have hbase' : base = (sr, (JsonObj.lookup t sr).getD (.arr [])) :=
    (Except.ok.inj hbase).symm
  subst hbase'
  rw [exceptBind_ok] at h
  obtain ⟨fa, hfa', h⟩ := h
  simp only [objGet] at hfa'
  have hfa'' : fa = (po, (JsonObj.lookup "focus_areas" po).getD (.arr [])) :=
    (Except.ok.inj hfa').symm
  subst hfa''
  have hbv : (JsonObj.lookup t sr).getD (.arr []) = Json.arr (tierList sr t) := by
    cases hlk : JsonObj.lookup t sr with
    | none => simp [tierList, hlk]
    | some v =>
        obtain ⟨l, hl⟩ := hsr t ht v hlk
        subst hl
        simp [tierList, hlk]
  have hfv : (JsonObj.lookup "focus_areas" po).getD (.arr []) =
      Json.arr (phaseFocus (.obj po)) := by
    cases hlk : JsonObj.lookup "focus_areas" po with
    | none => simp [phaseFocus, hlk]
    | some v =>
        obtain ⟨l, hl⟩ := hfa v hlk
        subst hl
        simp [phaseFocus, hlk]
  rw [hbv, hfv] at h
  rw [exceptBind_ok] at h
  obtain ⟨combined, hcomb, h⟩ := h
  simp only [pyAdd] at hcomb
  have hcomb' : combined = Json.arr (tierList sr t ++ phaseFocus (.obj po)) :=
    (Except.ok.inj hcomb).symm
  subst hcomb'
  rw [exceptBind_ok] at h
  obtain ⟨ded, hded, h⟩ := h
  simp only [pySetList] at hded
  have hded' : ded = Json.arr (tierList sr t ++ phaseFocus (.obj po)).dedup := by
    by_cases hh : ((tierList sr t ++ phaseFocus (.obj po)).all hashable) = true
    · rw [if_pos hh] at hded
      exact (Except.ok.inj hded).symm
    · rw [if_neg hh] at hded
      cases hded
  subst hded'
  rw [exceptPure_eq] at h
  exact h.symm

theorem mergeGuidance_skill (cp cp' : JsonObj) (g : Json)
    (h : mergeGuidance cp g = .ok cp') :
    cp'.lookup "skill_roadmap" = cp.lookup "skill_roadmap" := by
  unfold mergeGuidance at h
  rw [exceptBind_ok] at h
  obtain ⟨topic, htopic, h⟩ := h
  rw [exceptBind_ok] at h
  obtain ⟨r1, hr1, h⟩ := h
  rw [exceptBind_ok] at h
  obtain ⟨r2, hr2, h⟩ := h
  rw [exceptBind_ok] at h
  obtain ⟨r3, hr3, h⟩ := h
  cases hmg : cp.lookup "mentor_guidance" with
  | none => rw [hmg] at h; cases h
  | some v =>
      rw [hmg] at h
      cases v with
      | arr l =>
          rw [exceptPure_eq] at h
          rw [← h, JsonObj.lookup_setKey_ne _ _ _ _ (by decide)]
      | null => cases h
      | bool b => cases h
      | num q => cases h
      | str s => cases h
      | obj o => cases h

theorem foldGuidance_skill :
    ∀ (gs : List Json) (cp cp' : JsonObj),
    gs.foldlM mergeGuidance cp = .ok cp' →
    cp'.lookup "skill_roadmap" = cp.lookup "skill_roadmap" := by
  intro gs
  induction gs with
  | nil =>
      intro cp cp' h
      rw [List.foldlM_nil, exceptPure_eq] at h
      rw [h]
  | cons g rest ih =>
      intro cp cp' h
      rw [List.foldlM_cons, exceptBind_ok] at h
      obtain ⟨cp1, h1, h2⟩ := h
      rw [ih cp1 cp' h2, mergeGuidance_skill cp cp1 g h1]

theorem foldPhases_spec :
    ∀ (phases : List Json) (cp cp' : JsonObj) (sr : List (String × Json)),
    phases.foldlM mergePhase cp = .ok cp' →
    cp.lookup "skill_roadmap" = some (.obj sr) →
    srTyped sr →
    phasesTyped phases →
    ∃ sr', cp'.lookup "skill_roadmap" = some (.obj sr') ∧ srTyped sr' ∧
      (∀ t ∈ tierNames, ∀ x : Json, x ∈ tierList sr' t ↔
        x ∈ tierList sr t ∨ ∃ p ∈ phases, tierMatches p t ∧ x ∈ phaseFocus p) ∧
      (∀ t ∈ tierNames, (∀ p ∈ phases, ¬ tierMatches p t) →
        tierList sr' t = tierList sr t) ∧
      (∀ t ∈ tierNames, (∃ p ∈ phases, tierMatches p t) → (tierList sr' t).Nodup) := by
  intro phases
  induction phases with
  | nil =>
      intro cp cp' sr h hcp hsr hpt
      rw [List.foldlM_nil, exceptPure_eq] at h
      subst h
      refine ⟨sr, hcp, hsr, fun t ht x => by simp, fun t ht _ => rfl, ?_⟩
      intro t ht hex
      obtain ⟨p, hp, -⟩ := hex
      simp at hp
  | cons p rest ih =>
      intro cp cp' sr h hcp hsr hpt
      rw [List.foldlM_cons, exceptBind_ok] at h
      obtain ⟨cp1, hp1, hrest⟩ := h
      unfold mergePhase at hp1
      rw [exceptBind_ok] at hp1
      obtain ⟨ph, hph, hp1⟩ := hp1
      have hptrest : phasesTyped rest := fun q hq => hpt q (List.mem_cons_of_mem _ hq)
      cases p with
      | null => simp [pyGetItem] at hph
      | bool b => simp [pyGetItem] at hph
      | num q => simp [pyGetItem] at hph
      | str s => simp [pyGetItem] at hph
      | arr l => simp [pyGetItem] at hph
      | obj po =>
          simp only [pyGetItem] at hph
          cases hlph : JsonObj.lookup "phase" po with
          | none => rw [hlph] at hph; cases hph
          | some phv =>
              rw [hlph] at hph
              have hphv : phv = ph := Except.ok.inj hph
              subst hphv
              have hmatch : ∀ t', tierMatches (.obj po) t' ↔ tierOf phv = some t' :=
                fun t' => tierMatches_iff po phv t' hlph
              have key : ∀ t, t ∈ tierNames → tierOf phv = some t →
                  mergeTier cp (.obj po) t = .ok cp1 →
                  ∃ sr', cp'.lookup "skill_roadmap" = some (.obj sr') ∧ srTyped sr' ∧
                    (∀ t' ∈ tierNames, ∀ x : Json, x ∈ tierList sr' t' ↔
                      x ∈ tierList sr t' ∨
                        ∃ q ∈ Json.obj po :: rest, tierMatches q t' ∧ x ∈ phaseFocus q) ∧
                    (∀ t' ∈ tierNames,
                      (∀ q ∈ Json.obj po :: rest, ¬ tierMatches q t') →
                      tierList sr' t' = tierList sr t') ∧
                    (∀ t' ∈ tierNames,
                      (∃ q ∈ Json.obj po :: rest, tierMatches q t') →
                      (tierList sr' t').Nodup) := by
                intro t ht hmt hmerge
                have hfa : ∀ v, JsonObj.lookup "focus_areas" po = some v →
                    ∃ l, v = .arr l :=
                  hpt (Json.obj po) (List.mem_cons_self _ _) po rfl
                have e1 := mergeTier_spec cp po t sr cp1 hcp hsr ht hfa hmerge
                have hcp1 : cp1.lookup "skill_roadmap" =
                    some (.obj (JsonObj.setKey t
                      (.arr (tierList sr t ++ phaseFocus (.obj po)).dedup) sr)) := by
                  rw [e1]; exact JsonObj.lookup_setKey_self _ _ _
                have hsr1 : srTyped (JsonObj.setKey t
                    (.arr (tierList sr t ++ phaseFocus (.obj po)).dedup) sr) := by
                  intro t' ht' v hv
                  by_cases hte : t' = t
                  · subst hte
                    rw [JsonObj.lookup_setKey_self] at hv
                    exact ⟨_, (Option.some.inj hv).symm⟩
                  · rw [JsonObj.lookup_setKey_ne _ _ _ _ hte] at hv
                    exact hsr t' ht' v hv
                obtain ⟨sr', hcp', hsr', miff, stab, nodup⟩ :=
                  ih cp1 cp' _ hrest hcp1 hsr1 hptrest
                have htl_t : tierList (JsonObj.setKey t
                    (.arr (tierList sr t ++ phaseFocus (.obj po)).dedup) sr) t =
                    (tierList sr t ++ phaseFocus (.obj po)).dedup := by
                  simp [tierList, JsonObj.lookup_setKey_self]
                have htl_ne : ∀ t', t' ≠ t →
                    tierList (JsonObj.setKey t
                      (.arr (tierList sr t ++ phaseFocus (.obj po)).dedup) sr) t' =
                      tierList sr t' := by
                  intro t' hne
                  simp [tierList, JsonObj.lookup_setKey_ne _ _ _ _ hne]
                have hpm : tierMatches (Json.obj po) t := (hmatch t).mpr hmt
                have hpm_ne : ∀ t', t' ≠ t → ¬ tierMatches (Json.obj po) t' := by
                  intro t' hne hm
                  rw [hmatch] at hm
                  rw [hmt] at hm
                  exact hne (Option.some.inj hm).symm
                refine ⟨sr', hcp', hsr', ?_, ?_, ?_⟩
                · intro t' ht' x
                  rw [miff t' ht' x]
                  by_cases hte : t' = t
                  · subst hte
                    rw [htl_t]
                    simp only [List.mem_dedup, List.mem_append]
                    constructor
                    · rintro ((hx | hx) | ⟨q, hq, hmq, hxq⟩)
                      · exact .inl hx
                      · exact .inr ⟨Json.obj po, List.mem_cons_self _ _, hpm, hx⟩
                      · exact .inr ⟨q, List.mem_cons_of_mem _ hq, hmq, hxq⟩
                    · rintro (hx | ⟨q, hq, hmq, hxq⟩)
                      · exact .inl (.inl hx)
                      · rcases List.mem_cons.mp hq with rfl | hq'
                        · exact .inl (.inr hxq)
                        · exact .inr ⟨q, hq', hmq, hxq⟩
                  · rw [htl_ne t' hte]
                    constructor
                    · rintro (hx | ⟨q, hq, hmq, hxq⟩)
                      · exact .inl hx
                      · exact .inr ⟨q, List.mem_cons_of_mem _ hq, hmq, hxq⟩
                    · rintro (hx | ⟨q, hq, hmq, hxq⟩)
                      · exact .inl hx
                      · rcases List.mem_cons.mp hq with rfl | hq'
                        · exact absurd hmq (hpm_ne t' hte)
                        · exact .inr ⟨q, hq', hmq, hxq⟩
                · intro t' ht' hnone
                  have ht'ne : t' ≠ t := by
                    intro he
                    exact hnone (Json.obj po) (List.mem_cons_self _ _) (he ▸ hpm)
                  have hnr : ∀ q ∈ rest, ¬ tierMatches q t' :=
                    fun q hq => hnone q (List.mem_cons_of_mem _ hq)
                  rw [stab t' ht' hnr, htl_ne t' ht'ne]
                · intro t' ht' hex
                  obtain ⟨q, hq, hmq⟩ := hex
                  rcases List.mem_cons.mp hq with rfl | hq'
                  · have ht'e : t' = t := by
                      rw [hmatch] at hmq
                      rw [hmt] at hmq
                      exact (Option.some.inj hmq).symm
                    subst ht'e
                    by_cases hrm : ∃ q' ∈ rest, tierMatches q' t'
                    · exact nodup t' ht' hrm
                    · push_neg at hrm
                      rw [stab t' ht' hrm, htl_t]
                      exact List.nodup_dedup _
                  · exact nodup t' ht' ⟨q, hq', hmq⟩
              by_cases h1 : phv = .str "beginner"
              · rw [if_pos h1] at hp1
                exact key "foundational_skills" (by decide) (by simp [tierOf, h1]) hp1
              · rw [if_neg h1] at hp1
                by_cases h2 : phv = .str "intermediate"
                · rw [if_pos h2] at hp1
                  exact key "intermediate_skills" (by decide) (by simp [tierOf, h1, h2]) hp1
                · rw [if_neg h2] at hp1
                  by_cases h3 : phv = .str "advanced" ∨ phv = .str "expert"
                  · rw [if_pos h3] at hp1
                    exact key "advanced_skills" (by decide) (by simp [tierOf, h1, h2, h3]) hp1
                  · rw [if_neg h3, exceptPure_eq] at hp1
                    subst hp1
                    have hnone : tierOf phv = none := by simp [tierOf, h1, h2, h3]
                    have hnm : ∀ t', ¬ tierMatches (Json.obj po) t' := by
                      intro t' hm
                      rw [hmatch] at hm
                      rw [hnone] at hm
                      cases hm
                    obtain ⟨sr', hcp', hsr', miff, stab, nodup⟩ :=
                      ih _ cp' sr hrest hcp hsr hptrest
                    refine ⟨sr', hcp', hsr', ?_, ?_, ?_⟩
                    · intro t' ht' x
                      rw [miff t' ht' x]
                      constructor
                      · rintro (hx | ⟨q, hq, hmq, hxq⟩)
                        · exact .inl hx
                        · exact .inr ⟨q, List.mem_cons_of_mem _ hq, hmq, hxq⟩
                      · rintro (hx | ⟨q, hq, hmq, hxq⟩)
                        · exact .inl hx
                        · rcases List.mem_cons.mp hq with rfl | hq'
                          · exact absurd hmq (hnm t')
                          · exact .inr ⟨q, hq', hmq, hxq⟩
                    · intro t' ht' hnoneM
                      exact stab t' ht'
                        (fun q hq => hnoneM q (List.mem_cons_of_mem _ hq))
                    · intro t' ht' hex
                      obtain ⟨q, hq, hmq⟩ := hex
                      rcases List.mem_cons.mp hq with rfl | hq'
                      · exact absurd hmq (hnm t')
                      · exact nodup t' ht' ⟨q, hq', hmq⟩

/-- C4.  In the merged comprehensive document, each skill tier list equals —
as a set — the union of the learning path's corresponding `skill_roadmap`
tier list with the `focus_areas` of every roadmap `mastery_progression`
phase matched by phase name (beginner→foundational_skills,
intermediate→intermediate_skills, advanced/expert→advanced_skills), and any
tier that received at least one matched phase is duplicate-free
(deduplicated); Python's set order being unspecified, the property is stated
order-independently. -/
theorem claim4_skill_merge :
    ∀ (lp rm out : JsonObj) (sr : List (String × Json)) (phases : List Json),
    mergeLearningPathAndRoadmap lp rm = .ok out →
    lp.lookup "skill_roadmap" = some (.obj sr) →
    rm.lookup "mastery_progression" = some (.arr phases) →
    srTyped sr → phasesTyped phases →
    ∃ sr', out.lookup "skill_roadmap" = some (.obj sr') ∧
      (∀ t ∈ tierNames, ∀ x : Json,
        x ∈ tierList sr' t ↔
          x ∈ tierList sr t ∨ ∃ p ∈ phases, tierMatches p t ∧ x ∈ phaseFocus p) ∧
      (∀ t ∈ tierNames, (∃ p ∈ phases, tierMatches p t) → (tierList sr' t).Nodup) := by
  intro lp rm out sr phases hm hsr hmp htyped hptyped
  unfold mergeLearningPathAndRoadmap at hm
  have hcp0sk : (lp.setKey "expert_roadmap" (.obj rm)).lookup "skill_roadmap" =
      some (.obj sr) := by
    rw [JsonObj.lookup_setKey_ne _ _ _ _ (by decide)]
    exact hsr
  have hguard : ((lp.setKey "expert_roadmap" (.obj rm)).hasKey "skill_roadmap" &&
      JsonObj.hasKey rm "mastery_progression") = true := by
    rw [Bool.and_eq_true]
    constructor
    · rw [JsonObj.hasKey, hcp0sk]; rfl
    · rw [JsonObj.hasKey, hmp]; rfl
  rw [exceptBind_ok] at hm
  obtain ⟨cp1, hcp1eq, hm2⟩ := hm
  unfold mergeSkillStage at hcp1eq
  unfold mergeGuidanceStage at hm2
  rw [if_pos hguard] at hcp1eq
  rw [exceptBind_ok] at hcp1eq
  obtain ⟨mpv, hmpv, hcp1eq⟩ := hcp1eq
  rw [hmp] at hmpv
  have hmpv' : mpv = Json.arr phases := (Except.ok.inj hmpv).symm
  subst hmpv'
  rw [exceptBind_ok] at hcp1eq
  obtain ⟨phs, hphs, hfold⟩ := hcp1eq
  simp only [pyIter] at hphs
  rw [← Except.ok.inj hphs] at hfold
  obtain ⟨sr', hsk1, hsr', miff, stab, nodup⟩ :=
    foldPhases_spec phases _ cp1 sr hfold hcp0sk htyped hptyped
  cases hEG : JsonObj.hasKey rm "expert_guidance" with
  | false =>
      rw [hEG] at hm2
      simp only [Bool.false_eq_true, if_false, exceptPure_eq] at hm2
      subst hm2
      exact ⟨sr', hsk1, miff, nodup⟩
  | true =>
      rw [hEG] at hm2
      simp only [if_true] at hm2
      rw [exceptBind_ok] at hm2
      obtain ⟨egv, hegv, hm2⟩ := hm2
      rw [exceptBind_ok] at hm2
      obtain ⟨gs, hgs, hfold2⟩ := hm2
      have hsk2 := foldGuidance_skill gs _ out hfold2
      have hcp2sk : (if cp1.hasKey "mentor_guidance" then cp1
          else cp1.setKey "mentor_guidance" (.arr [])).lookup "skill_roadmap" =
          cp1.lookup "skill_roadmap" := by
        cases hmg : cp1.hasKey "mentor_guidance" with
        | true => simp [hmg]
        | false =>
            simp [hmg, JsonObj.lookup_setKey_ne cp1 "mentor_guidance"
              "skill_roadmap" (Json.arr []) (by decide)]
      rw [hcp2sk, hsk1] at hsk2
      exact ⟨sr', hsk2, miff, nodup⟩

/-- Witness inputs for C4: one beginner phase merged into an existing
foundational tier. -/
def srW : List (String × Json) :=
  [("foundational_skills", Json.arr [Json.str "algebra"])]

def lpW : JsonObj := [("skill_roadmap", Json.obj srW)]

def phW : Json := Json.obj [("phase", Json.str "beginner"),
  ("focus_areas", Json.arr [Json.str "arithmetic", Json.str "algebra"])]

def rmW : JsonObj := [("mastery_progression", Json.arr [phW])]

/-- The merged document of the C4 witness inputs. -/
def outW : JsonObj :=
  [("skill_roadmap", Json.obj [("foundational_skills",
      Json.arr [Json.str "arithmetic", Json.str "algebra"])]),
   ("expert_roadmap", Json.obj rmW)]

/-- Witness for C4 at a concrete merge. -/
theorem claim4_skill_merge_witness :
    (mergeLearningPathAndRoadmap lpW rmW = .ok outW ∧
     JsonObj.lookup "skill_roadmap" lpW = some (.obj srW) ∧
     JsonObj.lookup "mastery_progression" rmW = some (.arr [phW])) ∧
    ∃ sr', JsonObj.lookup "skill_roadmap" outW = some (.obj sr') ∧
      (∀ t ∈ tierNames, ∀ x : Json,
        x ∈ tierList sr' t ↔
          x ∈ tierList srW t ∨ ∃ p ∈ [phW], tierMatches p t ∧ x ∈ phaseFocus p) ∧
      (∀ t ∈ tierNames, (∃ p ∈ [phW], tierMatches p t) → (tierList sr' t).Nodup) := by
  refine ⟨⟨rfl, rfl, rfl⟩, claim4_skill_merge lpW rmW outW srW [phW] rfl rfl rfl ?_ ?_⟩
  · intro t ht v hv
    fin_cases ht
    · simp [srW, JsonObj.lookup] at hv
      exact ⟨_, hv.symm⟩
    · simp [srW, JsonObj.lookup] at hv
    · simp [srW, JsonObj.lookup] at hv
  · intro p hp po hpo v hv
    simp only [List.mem_singleton] at hp
    subst hp
    rw [phW] at hpo
    injection hpo with hpo'
    subst hpo'
    simp [JsonObj.lookup] at hv
    exact ⟨_, hv.symm⟩

/-! ## Deterministic task generation (`tasks/services.py`, `TaskGenerator`)

`timezone.now().isoformat()` and
`settings.TASK_GENERATION.get('DEFAULT_DUE_DAYS', 7)` are passed in as the
`nowIso` and `dueDays` parameters. -/

/-- `TaskGenerator._normalize_difficulty`: `difficulty_map.get(d, 'medium')`
over the fixed literal table. -/
def normalizeDifficulty (d : String) : String :=
  if d = "basic" then "easy"
  else if d = "Basic" then "easy"
  else if d = "intermediate" then "medium"
  else if d = "Intermediate" then "medium"
  else if d = "advanced" then "hard"
  else if d = "Advanced" then "hard"
  else if d = "easy" then "easy"
  else if d = "medium" then "medium"
  else if d = "hard" then "hard"
  else "medium"

/-- Python `str.capitalize()`. -/
def pyCapitalize (s : String) : String :=
  match s.toList with
  | [] => ""
  | c :: rest => String.mk (c.toUpper :: rest.map Char.toLower)

/-- Quiz branch of `TaskGenerator._generate_task_content`. -/
def quizContent (lo : String) : Json := .obj [
  ("instructions", .str ("Test your knowledge about " ++ lo)),
  ("questions", .arr [
    .obj [("question", .str ("What is the primary purpose of " ++ lo ++ "?")),
      ("options", .arr [.str "To improve system efficiency",
        .str "To enhance user experience", .str "To maintain data integrity",
        .str "To ensure security compliance"]),
      ("correct_answer", .num 0),
      ("type", .str "multiple_choice"),
      ("explanation", .str "Understanding the primary purpose helps establish the foundation.")],
    .obj [("question", .str ("Which of the following best describes " ++ lo ++ "?")),
      ("options", .arr [.str "A systematic approach to problem-solving",
        .str "A collection of best practices", .str "A framework for development",
        .str "An implementation strategy"]),
      ("correct_answer", .num 1),
      ("type", .str "multiple_choice"),
      ("explanation", .str "This helps clarify the core concept.")],
    .obj [("question", .str "True or False: Regular practice is essential for mastering this concept."),
      ("options", .arr [.str "True", .str "False"]),
      ("correct_answer", .num 0),
      ("type", .str "boolean"),
      ("explanation", .str "Practice is key to understanding and retention.")],
    .obj [("question", .str ("What are the key components of " ++ lo ++ "?")),
      ("type", .str "short_answer"),
      ("max_words", .num 100),
      ("sample_answer", .str "The key components include fundamental principles, practical applications, and evaluation methods.")]]),
  ("time_limit", .num 30),
  ("passing_score", .num 70),
  ("show_explanations", .bool true)]

/-- Assignment branch of `TaskGenerator._generate_task_content`. -/
def assignmentContent (lo : String) : Json := .obj [
  ("instructions", .str ("Complete this comprehensive assignment about " ++ lo)),
  ("sections", .arr [
    .obj [("title", .str "Theoretical Understanding"),
      ("description", .str ("Explain the core concepts of " ++ lo)),
      ("type", .str "essay"),
      ("word_limit", .num 500),
      ("rubric", .obj [
        ("understanding", .str "Demonstrates clear understanding of concepts"),
        ("analysis", .str "Provides thoughtful analysis and examples"),
        ("organization", .str "Well-structured and coherent presentation")])],
    .obj [("title", .str "Practical Application"),
      ("description", .str ("Design a solution using principles of " ++ lo)),
      ("type", .str "project"),
      ("requirements", .arr [.str "Clear problem statement",
        .str "Detailed solution approach", .str "Implementation considerations",
        .str "Expected outcomes"]),
      ("deliverables", .arr [.str "Project documentation",
        .str "Implementation plan", .str "Evaluation criteria"])],
    .obj [("title", .str "Reflection"),
      ("description", .str "Reflect on your learning experience"),
      ("type", .str "short_answer"),
      ("prompts", .arr [.str "What were the key insights you gained?",
        .str "How can you apply these concepts in real-world scenarios?",
        .str "What challenges did you face and how did you overcome them?"])]]),
  ("submission_format", .str "pdf"),
  ("resources", .arr [.str "Course materials", .str "Online documentation",
    .str "Reference examples"]),
  ("grading_criteria", .obj [("content", .num 40), ("analysis", .num 30),
    ("presentation", .num 20), ("reflection", .num 10)])]

/-- Interactive branch of `TaskGenerator._generate_task_content`. -/
def interactiveContent (lo : String) : Json := .obj [
  ("activity_type", .str "multi_stage_practice"),
  ("instructions", .str ("Complete this interactive learning session about " ++ lo)),
  ("stages", .arr [
    .obj [("title", .str "Concept Review"),
      ("type", .str "matching"),
      ("items", .arr [
        .obj [("id", .num 1), ("text", .str ("Definition of " ++ lo))],
        .obj [("id", .num 2), ("text", .str "Key Principles")],
        .obj [("id", .num 3), ("text", .str "Best Practices")],
        .obj [("id", .num 4), ("text", .str "Common Challenges")]]),
      ("matches", .arr [
        .obj [("id", .str "a"), ("text", .str "Core understanding of the subject matter")],
        .obj [("id", .str "b"), ("text", .str "Fundamental rules and guidelines")],
        .obj [("id", .str "c"), ("text", .str "Recommended approaches")],
        .obj [("id", .str "d"), ("text", .str "Typical obstacles and solutions")]]),
      ("correct_matches", .obj [("1", .str "a"), ("2", .str "b"),
        ("3", .str "c"), ("4", .str "d")])],
    .obj [("title", .str "Practical Exercise"),
      ("type", .str "simulation"),
      ("scenario", .str ("Apply " ++ lo ++ " in a real-world situation")),
      ("steps", .arr [
        .obj [("order", .num 1), ("action", .str "Identify the problem"),
          ("hints", .arr [.str "Consider the context", .str "Review requirements"])],
        .obj [("order", .num 2), ("action", .str "Plan your approach"),
          ("hints", .arr [.str "Break down into steps", .str "Consider alternatives"])],
        .obj [("order", .num 3), ("action", .str "Implement solution"),
          ("hints", .arr [.str "Follow best practices", .str "Test as you go"])]])],
    .obj [("title", .str "Knowledge Check"),
      ("type", .str "drag_and_drop"),
      ("elements", .arr [
        .obj [("id", .num 1), ("text", .str "First step"), ("correct_position", .num 1)],
        .obj [("id", .num 2), ("text", .str "Second step"), ("correct_position", .num 2)],
        .obj [("id", .num 3), ("text", .str "Third step"), ("correct_position", .num 3)],
        .obj [("id", .num 4), ("text", .str "Final step"), ("correct_position", .num 4)]]),
      ("feedback", .obj [
        ("success", .str "Great job! You\x27ve mastered the sequence."),
        ("partial", .str "Almost there! Review the order once more."),
        ("failure", .str "Review the process and try again.")])]]),
  ("progress_tracking", .obj [("minimum_score", .num 70),
    ("attempts_allowed", .num 3), ("time_limit", .num 45)]),
  ("completion_criteria", .obj [("all_stages_completed", .bool true),
    ("minimum_accuracy", .num 80), ("minimum_time_spent", .num 15)])]

/-- `TaskGenerator._generate_task_content` (the `else` branch is
interactive). -/
def generateTaskContent (taskType lo : String) : Json :=
  if taskType = "quiz" then quizContent lo
  else if taskType = "assignment" then assignmentContent lo
  else interactiveContent lo

/-- One task dict of the `TaskGenerator.generate_tasks` loop. -/
def taskFor (lo difficulty nowIso : String) (dueDays : Json)
    (taskType : String) : JsonObj :=
  [("title", .str (lo ++ " - " ++ pyCapitalize taskType)),
   ("description", .str ("Complete this " ++ taskType ++ " to master " ++ lo)),
   ("task_type", .str taskType),
   ("difficulty", .str (normalizeDifficulty difficulty)),
   ("learning_objective", .str lo),
   ("estimated_time", .str "30 minutes"),
   ("points", .num 100),
   ("content", generateTaskContent taskType lo),
   ("status", .str "active"),
   ("created_at", .str nowIso),
   ("due_days", dueDays)]

/-- `TaskGenerator.generate_tasks`: one task per type in
`['quiz', 'assignment', 'interactive']` (`student_grade` is only logged by
the source, so it does not appear in the result). -/
def generateTasks (lo difficulty _studentGrade nowIso : String)
    (dueDays : Json) : List JsonObj :=
  ["quiz", "assignment", "interactive"].map (taskFor lo difficulty nowIso dueDays)

/-- C8.  For every objective, difficulty (including unrecognized), and grade,
the deterministic strategy returns exactly 3 tasks whose `task_type`s are
exactly quiz, assignment and interactive, all carrying the normalized
difficulty; the function is total (never fails). -/
theorem claim8_deterministic_tasks
    (lo difficulty grade nowIso : String) (dueDays : Json) :
    (generateTasks lo difficulty grade nowIso dueDays).length = 3 ∧
    (generateTasks lo difficulty grade nowIso dueDays).map
        (fun t => JsonObj.lookup "task_type" t) =
      [some (.str "quiz"), some (.str "assignment"), some (.str "interactive")] ∧
    ∀ t ∈ generateTasks lo difficulty grade nowIso dueDays,
      JsonObj.lookup "difficulty" t = some (.str (normalizeDifficulty difficulty)) := by
  refine ⟨rfl, rfl, ?_⟩
  intro t ht
  simp only [generateTasks, List.map_cons, List.map_nil, List.mem_cons,
    List.not_mem_nil, or_false] at ht
  rcases ht with rfl | rfl | rfl <;> rfl

/-- Witness for C8 at concrete inputs (an unrecognized difficulty). -/
theorem claim8_deterministic_tasks_witness :
    (generateTasks "Fractions" "BASIC" "grade 5" "2026-01-01T00:00:00" (Json.num 7)).length = 3 ∧
    ∀ t ∈ generateTasks "Fractions" "BASIC" "grade 5" "2026-01-01T00:00:00" (Json.num 7),
      JsonObj.lookup "difficulty" t = some (.str (normalizeDifficulty "BASIC")) :=
  ⟨(claim8_deterministic_tasks "Fractions" "BASIC" "grade 5" "2026-01-01T00:00:00" (Json.num 7)).1,
   (claim8_deterministic_tasks "Fractions" "BASIC" "grade 5" "2026-01-01T00:00:00" (Json.num 7)).2.2⟩

/-- C9, counterexample.  `"BASIC"` is not a key of the literal lookup table,
so it falls to the default `"medium"` while `"basic"` maps to `"easy"`:
normalization is not case-insensitive and two strings equal up to case can
map differently. -/
theorem claim9_counterexample :
    normalizeDifficulty "BASIC" = "medium" ∧
    normalizeDifficulty "basic" = "easy" ∧
    ("medium" : String) ≠ "easy" := ⟨rfl, rfl, by decide⟩

/-- C9, amended.  Normalization is a total function given by the literal
table: exactly the lowercase and capitalized spellings map
(basic/Basic→easy, intermediate/Intermediate→medium, advanced/Advanced→hard),
the already-normalized values pass through, and every other string —
including other casings such as BASIC — maps to medium. -/
theorem claim9_amended :
    (normalizeDifficulty "basic" = "easy" ∧ normalizeDifficulty "Basic" = "easy" ∧
     normalizeDifficulty "intermediate" = "medium" ∧
     normalizeDifficulty "Intermediate" = "medium" ∧
     normalizeDifficulty "advanced" = "hard" ∧ normalizeDifficulty "Advanced" = "hard" ∧
     normalizeDifficulty "easy" = "easy" ∧ normalizeDifficulty "medium" = "medium" ∧
     normalizeDifficulty "hard" = "hard") ∧
    ∀ d : String,
      d ∉ (["basic", "Basic", "intermediate", "Intermediate", "advanced",
        "Advanced", "easy", "medium", "hard"] : List String) →
      normalizeDifficulty d = "medium" := by
  refine ⟨⟨rfl, rfl, rfl, rfl, rfl, rfl, rfl, rfl, rfl⟩, ?_⟩
  intro d hd
  simp only [List.mem_cons, List.not_mem_nil, or_false, not_or] at hd
  obtain ⟨h1, h2, h3, h4, h5, h6, h7, h8, h9⟩ := hd
  simp [normalizeDifficulty, h1, h2, h3, h4, h5, h6, h7, h8, h9]

/-- Witness for the amended C9 at the spec's `"unknown"` probe input. -/
theorem claim9_amended_witness :
    ("unknown" ∉ (["basic", "Basic", "intermediate", "Intermediate", "advanced",
        "Advanced", "easy", "medium", "hard"] : List String)) ∧
    normalizeDifficulty "unknown" = "medium" :=
  ⟨by decide, claim9_amended.2 "unknown" (by decide)⟩

/-! ## The generation pipeline and the request handler
(`LLMLearningPathGenerator.generate_learning_path`, `LearningPathView.post`)

An LLM call's network/parse outcome is abstracted as an `Except String Json`
per call index (the three prompts are pure strings built from the student
info, metrics and prior stage outputs; their content only influences the
remote model, which the claims quantify over).  `_call_llm_api` catches
every exception and returns a fallback dict, so it is total. -/

/-- The fallback dict returned by `_call_llm_api`'s `except` branch. -/
def fallbackLLMDoc (e : String) : Json :=
  .obj [("error", .str e),
        ("learning_path", .obj [("strengths", .arr []), ("weaknesses", .arr []),
          ("recommended_topics", .arr [])])]

/-- `LLMLearningPathGenerator._call_llm_api`: the successful JSON body, or
the fallback dict embedding the exception text. -/
def callLLMApi (r : Except String Json) : Json :=
  match r with
  | .ok j => j
  | .error e => fallbackLLMDoc e

/-- Stage outputs are fed to dict-subscripting code
(`_ensure_valid_structure`, `_validate_expert_roadmap`, the merge): a
non-dict top-level value raises there at its first string-keyed
subscript/assignment, modelled as an immediate error. -/
def asObj : Json → Except String (List (String × Json))
  | .obj o => .ok o
  | _ => .error "TypeError: top-level JSON value is not an object"

/-- The final loop of `generate_learning_path`:
`for key in analysis: if key not in comprehensive_plan: ...` (the analysis
of interest is always a dict; a non-dict is reported as an error). -/
def mergeAnalysisKeys (cp : JsonObj) (analysis : Json) : Except String JsonObj :=
  match analysis with
  | .obj a => .ok (a.foldl (fun acc kv =>
      if acc.hasKey kv.1 then acc else acc.setKey kv.1 kv.2) cp)
  | _ => .error "TypeError: analysis is not an object"

/-- `LLMLearningPathGenerator.generate_learning_path`: analysis call, path
call + repair, roadmap call + validation, merge, then student info and
leftover analysis keys.  (`_questions` feed only the prompts and the mutable
metric state — see `generatorMetricCalls` — not the returned document.) -/
def generateLearningPath (llm : ℕ → Except String Json) (cd : ℚ → String)
    (studentInfo : Json) (_questions : List Question) :
    Except String JsonObj := do
  let analysis := callLLMApi (llm 0)
  let lpObj ← asObj (callLLMApi (llm 1))
  let lp ← ensureValidStructure cd lpObj
  let rmObj ← asObj (callLLMApi (llm 2))
  let rm := validateExpertRoadmap rmObj
  let cp ← mergeLearningPathAndRoadmap lp rm
  mergeAnalysisKeys (cp.setKey "student_info" studentInfo) analysis

/-- One entry of the request's `responses` list, already shaped as
`_validate_responses` requires (both keys present, string-valued). -/
structure DiagResponse where
  question : String
  answer : String
deriving Repr, DecidableEq

/-- Python `str.lower()` (character-wise lowercasing). -/
def pyLower (s : String) : String := ⟨s.data.map Char.toLower⟩

/-- The keyword table of `LearningPathView._determine_subject`, in
declaration order (first match wins). -/
def subjectKeywords : List (String × List String) :=
  [("Math", ["math", "arithmetic", "algebra", "equation", "number"]),
   ("Reading", ["reading", "story", "passage", "text", "comprehension"]),
   ("Science", ["science", "scientific", "biology", "chemistry", "physics"]),
   ("Language", ["grammar", "sentence", "vocabulary", "spelling", "writing"])]

/-- `LearningPathView._determine_subject`. -/
def determineSubject (question : String) : String :=
  let q := pyLower question
  match subjectKeywords.find? (fun skw => skw.2.any (fun kw => strContains q kw)) with
  | some skw => skw.1
  | none => "General"

/-- One question dict built by `LearningPathView.post` for the generator. -/
structure PipeQuestion where
  question_text : String
  correct : Bool
  subject : String
deriving Repr, DecidableEq

/-- The question construction of `LearningPathView.post`:
`correct = response["answer"].lower() == "correct"`. -/
def buildQuestion (r : DiagResponse) : PipeQuestion :=
  ⟨r.question, decide (pyLower r.answer = "correct"), determineSubject r.question⟩

/-- The generator's view of a built question
(`q.get('subject')`, `q.get('correct', False)`). -/
def toQuestion (q : PipeQuestion) : Question :=
  ⟨.str q.subject, .bool q.correct⟩

/-- Outcome of `LearningPathView.post`; `created` carries the `path_data`
persisted in the `LearningPath` row of the 201 response. -/
inductive PostResult where
  | badRequest (msg : String)
  | notFound (msg : String)
  | serverError (msg : String)
  | created (pathData : JsonObj)
deriving Repr, DecidableEq

/-- `LearningPathView.post` for a request with a present `user_id` and
well-shaped responses: empty responses are rejected, a missing user yields
404, a pipeline exception yields 500 with nothing persisted, and otherwise
the generated document is persisted and returned with 201. -/
def postLearningPath (llm : ℕ → Except String Json) (cd : ℚ → String)
    (userExists : Bool) (userId : ℚ) (username : String)
    (responses : List DiagResponse) : PostResult :=
  if responses.isEmpty then .badRequest "No responses provided"
  else if !userExists then .notFound "User not found"
  else
    let studentInfo := Json.obj [("user_id", .num userId), ("username", .str username)]
    let questions := (responses.map buildQuestion).map toQuestion
    match generateLearningPath llm cd studentInfo questions with
    | .ok path => .created path
    | .error e => .serverError e

/-- `true` exactly on the 201-with-persisted-document outcome. -/
def isCreated : PostResult → Bool
  | .created _ => true
  | _ => false

/-- An LLM stub whose every call fails the way a non-JSON body does. -/
def llmFailC1 : ℕ → Except String Json :=
  fun _ => .error "Expecting value: line 1 column 1 (char 0)"

/-- A concrete one-response request. -/
def rsC1 : List DiagResponse := [⟨"What is 2 + 2 in math?", "4"⟩]

/-- C1, counterexample.  With every LLM call returning a non-JSON body, the
request does not terminate in a failed state and a document IS persisted:
`_call_llm_api` swallows the errors into fallback dicts, the pipeline
completes, and the handler answers 201 Created with a stored document. -/
theorem claim1_counterexample :
    (llmFailC1 0 = .error "Expecting value: line 1 column 1 (char 0)" ∧
     llmFailC1 1 = .error "Expecting value: line 1 column 1 (char 0)" ∧
     llmFailC1 2 = .error "Expecting value: line 1 column 1 (char 0)") ∧
    isCreated (postLearningPath llmFailC1 cdFix true 1 "alice" rsC1) = true :=
  ⟨⟨rfl, rfl, rfl⟩, rfl⟩

theorem generate_withFailingLLM (llm : ℕ → Except String Json)
    (es : ℕ → String) (cd : ℚ → String) (si : Json) (qs : List Question)
    (h : ∀ i, llm i = .error (es i)) :
    ∃ doc, generateLearningPath llm cd si qs = .ok doc := by
  unfold generateLearningPath
  rw [h 0, h 1, h 2]
  exact ⟨_, rfl⟩

/-- C1, amended.  For every request in which every LLM call fails (non-JSON
body or any other exception), the pipeline does not reach a failed state:
each failed call yields `_call_llm_api`'s built-in fallback skeleton — a
de-facto fallback generator — the run completes, a LearningPathDocument IS
persisted, and the handler returns 201 Created. -/
theorem claim1_amended (llm : ℕ → Except String Json) (es : ℕ → String)
    (cd : ℚ → String) (uid : ℚ) (uname : String) (rs : List DiagResponse)
    (hfail : ∀ i, llm i = .error (es i)) (hne : rs ≠ []) :
    isCreated (postLearningPath llm cd true uid uname rs) = true := by
  obtain ⟨doc, hdoc⟩ := generate_withFailingLLM llm es cd
    (Json.obj [("user_id", .num uid), ("username", .str uname)])
    ((rs.map buildQuestion).map toQuestion) hfail
  have hne' : rs.isEmpty = false := by
    cases rs with
    | nil => exact absurd rfl hne
    | cons a l => rfl
  unfold postLearningPath
  rw [hne']
  simp only [Bool.false_eq_true, if_false, Bool.not_true, hdoc, isCreated]

/-- Witness for the amended C1 at the concrete all-failing configuration. -/
theorem claim1_amended_witness :
    ((∀ i : ℕ, llmFailC1 i =
        .error "Expecting value: line 1 column 1 (char 0)") ∧
     rsC1 ≠ []) ∧
    isCreated (postLearningPath llmFailC1 cdFix true 1 "alice" rsC1) = true :=
  ⟨⟨fun _ => rfl, by decide⟩,
   claim1_amended llmFailC1 (fun _ => "Expecting value: line 1 column 1 (char 0)")
     cdFix 1 "alice" rsC1 (fun _ => rfl) (by decide)⟩

/-- C10.  The derived `correct` flag is true exactly when the response's
answer string, lowercased, equals `"correct"`; in particular `"Correct"`
counts as correct while `"true"`, `"yes"` and `"correct!"` do not. -/
theorem claim10_correct_flag (r : DiagResponse) :
    ((buildQuestion r).correct = true ↔ pyLower r.answer = "correct") ∧
    (buildQuestion ⟨"q", "Correct"⟩).correct = true ∧
    (buildQuestion ⟨"q", "true"⟩).correct = false ∧
    (buildQuestion ⟨"q", "yes"⟩).correct = false ∧
    (buildQuestion ⟨"q", "correct!"⟩).correct = false := by
  refine ⟨?_, by decide, by decide, by decide, by decide⟩
  simp [buildQuestion]

end HackBackend
